import Mathlib

/-!
# gorm-oracle: the dialect's clause rewriters and type resolver

A shallow embedding of `oracle.go`: `RewriteLimit`, `RewriteWhere`,
`DataTypeOf` and `Initialize`, with the host query builder's interfaces kept as
small records.  A Go panic is an `Except.error`; a Go `int` is an `Int`, and
the one conversion from `uint` wraps at 64 bits.
-/

set_option autoImplicit false

namespace Oracle

/-! ## Data model -/

/-- An `interface{}` value as far as the dialect inspects it: the only dynamic
type it tests for is `[]interface{}`. -/
inductive Value where
  | null
  | int (n : Int)
  | str (s : String)
  | slice (elems : List Value)

/-- The `Limit` field of `clause.Limit`: an `int` before gorm 1.25, an `*int`
(possibly nil) from 1.25 on. -/
inductive LimitValue where
  | int (n : Int)
  | ptr (p : Option Int)

/-- The `clause.Expression` implementations the dialect distinguishes by type
switch; `Other` stands for every other implementation (`Eq`, `Like`, ...). -/
inductive Expression where
  | Expr (SQL : String) (Vars : List Value)
  | OrConditions (Exprs : List Expression)
  | AndConditions (Exprs : List Expression)
  | IN (Column : Value) (Values : List Value)
  | Where (Exprs : List Expression)
  | Limit (Limit : LimitValue) (Offset : Int)
  | Other (tag : String)

/-- The `clause.Clause` handed to a clause builder. -/
structure Clause where
  Expression : Expression

/-- The `schema.Field` members read by the dialect.  `DataType` is the
`schema.DataType` string, which is both the kind and the raw declared type;
`TagSettings` is the tag map as an association list, looked up by first match;
`FieldTypeName` and `FieldTypeString` are `FieldType.Name()` and
`FieldType.String()`. -/
structure Field where
  DBName : String := ""
  DataType : String := ""
  Size : Int := 0
  PrimaryKey : Bool := false
  AutoIncrement : Bool := false
  HasDefaultValue : Bool := false
  NotNull : Bool := false
  TagSettings : List (String × String) := []
  FieldTypeName : String := ""
  FieldTypeString : String := ""

/-- The `schema.Schema` members read by the dialect. -/
structure Schema where
  PrioritizedPrimaryField : Option Field

/-- The `gorm.Statement` members the dialect reads or writes: the SQL buffer, the
bound values, the keys of the `Clauses` map and the (nullable) schema. -/
structure Statement where
  SQL : String
  Vars : List Value
  Clauses : List String
  Schema : Option Schema

/-- A `clause.Builder`: either the host's `*gorm.Statement` or any other
implementation, of which only the text buffer is kept. -/
inductive Builder where
  | Statement (stmt : Statement)
  | Writer (buf : String)

/-- The `Config` of the dialect. `DefaultStringSize` is a Go `uint`; `Conn` is
the `*sql.DB` handle, nil or a connection. -/
structure Config where
  DriverName : String := ""
  DSN : String := ""
  Conn : Option String := none
  DefaultStringSize : Nat := 0

/-- The `Dialector`, which embeds its `Config`. -/
structure Dialector where
  Config : Config

/-! ## Writer operations -/

/-- The text accumulated in a builder. -/
def Builder.text : Builder → String
  | .Statement stmt => stmt.SQL
  | .Writer buf => buf

/-- The method `WriteString` of the builder: append to the buffer. -/
def Builder.WriteString (b : Builder) (s : String) : Builder :=
  match b with
  | .Statement stmt => .Statement { stmt with SQL := stmt.SQL ++ s }
  | .Writer buf => .Writer (buf ++ s)

/-- The method `WriteByte` of the builder. -/
def Builder.WriteByte (b : Builder) (c : Char) : Builder :=
  b.WriteString (String.singleton c)

/-- `Dialector.QuoteTo`: the identifier is written as it is. -/
def QuoteTo (writer : Builder) (str : String) : Builder :=
  writer.WriteString str

/-- `Statement.WriteQuoted` on a string: the host statement hands the string to
the dialect's `QuoteTo`. -/
def Builder.WriteQuoted (b : Builder) (s : String) : Builder :=
  QuoteTo b s

/-- `strconv.Itoa`. -/
def Itoa : Int → String
  | Int.ofNat m => Nat.repr m
  | Int.negSucc m => "-" ++ Nat.repr (m + 1)

/-- `Dialector.DummyTableName`. -/
def DummyTableName (_d : Dialector) : String := "DUAL"

/-! ## RewriteLimit -/

/-- The `ORDER BY` synthesis of `RewriteLimit` (the block guarded by the two
type assertions on the builder and the `Clauses` lookup). -/
def writeOrderBy (d : Dialector) (builder : Builder) : Builder :=
  match builder with
  | .Statement stmt =>
    if "ORDER BY" ∈ stmt.Clauses then builder
    else
      let builder := builder.WriteString "ORDER BY "
      match stmt.Schema with
      | some ⟨some f⟩ => (builder.WriteQuoted f.DBName).WriteByte ' '
      | _ =>
        ((builder.WriteString "(SELECT NULL FROM ").WriteString
          (DummyTableName d)).WriteString ")"
  | .Writer _ => builder

/-- The `OFFSET` part of `RewriteLimit`. -/
def writeOffset (offset : Int) (builder : Builder) : Builder :=
  if offset > 0 then
    ((builder.WriteString " OFFSET ").WriteString (Itoa offset)).WriteString " ROWS"
  else builder

/-- The three writes of a `FETCH NEXT` clause. -/
def writeFetch (n : Int) (builder : Builder) : Builder :=
  ((builder.WriteString " FETCH NEXT ").WriteString (Itoa n)).WriteString " ROWS ONLY"

/-- The two `FETCH` blocks of `RewriteLimit`.  The `int` assertion succeeds on
the plain representation only; the `*int` assertion succeeds on every pointer,
nil included, and the pointer is then dereferenced. -/
def writeLimit (limit : LimitValue) (builder : Builder) : Except String Builder :=
  let builder :=
    match limit with
    | .int _limitInt => if _limitInt > 0 then writeFetch _limitInt builder else builder
    | .ptr _ => builder
  match limit with
  | .int _ => .ok builder
  | .ptr none => .error "invalid memory address or nil pointer dereference"
  | .ptr (some v) => .ok (if v > 0 then writeFetch v builder else builder)

/-- `Dialector.RewriteLimit`. -/
def RewriteLimit (d : Dialector) (c : Clause) (builder : Builder) :
    Except String Builder :=
  match c.Expression with
  | .Limit limit offset =>
    writeLimit limit (writeOffset offset (writeOrderBy d builder))
  | _ => .ok builder

/-! ## RewriteWhere -/

/-- The two renderers `RewriteWhere` calls and does not define: `expr.Build` of
the host's clause package and `clauses.IN{Column, Values}.Build` of the
dialect's membership expansion. -/
structure Host where
  Build : Expression → Builder → Builder
  BuildIN : Value → List Value → Builder → Builder

/-- `strings.ToLower`, on the ASCII letters (no other letter has one of `a`, `n`,
`d`, `o`, `r` as its lower case, so the text test below reads the same). -/
def ToLower (s : String) : String := ⟨s.data.map Char.toLower⟩

/-- `strings.Contains`. -/
def Contains (s substr : String) : Bool := decide (substr.data <:+: s.data)

/-- The break test of the first loop: `!ok || len(v.Exprs) > 1`. -/
def isAnchor : Expression → Bool
  | .OrConditions Exprs => decide (Exprs.length > 1)
  | _ => true

/-- The assignment `Exprs[0], Exprs[idx] = Exprs[idx], Exprs[0]`. -/
def swapFirst (Exprs : List Expression) (idx : Nat) : List Expression :=
  match Exprs[0]?, Exprs[idx]? with
  | some a, some b => (Exprs.set 0 b).set idx a
  | _, _ => Exprs

/-- The first loop of `RewriteWhere`, at position `idx` with `rest` still to
visit; `Exprs` is the whole slice. -/
def normalizeFrom (Exprs : List Expression) : List Expression → Nat → List Expression
  | [], _ => Exprs
  | expr :: rest, idx =>
    if isAnchor expr then
      if idx ≠ 0 then swapFirst Exprs idx else Exprs
    else normalizeFrom Exprs rest (idx + 1)

/-- The slice `where.Exprs` after the first loop. -/
def normalizeExprs (Exprs : List Expression) : List Expression :=
  normalizeFrom Exprs Exprs 0

/-- The joiner test: `ok && len(v.Exprs) == 1` on an `OrConditions`. -/
def isSingleOr : Expression → Bool
  | .OrConditions [_] => true
  | _ => false

/-- The text test of the parenthesization switch. -/
def containsAndOr (SQL : String) : Bool :=
  let sql := ToLower SQL
  Contains sql "and" || Contains sql "or"

/-- The type switch that assigns `wrapInParentheses`; where no case assigns
it, it keeps its value. -/
def wrapSwitch (expr : Expression) (wrapInParentheses : Bool) : Bool :=
  match expr with
  | .OrConditions [e] =>
    match e with
    | .Expr SQL _ => containsAndOr SQL
    | _ => wrapInParentheses
  | .AndConditions [e] =>
    match e with
    | .Expr SQL _ => containsAndOr SQL
    | _ => wrapInParentheses
  | .Expr SQL _ => containsAndOr SQL
  | _ => wrapInParentheses

/-- The joiner written before the child at `idx`. -/
def writeJoiner (idx : Nat) (expr : Expression) (builder : Builder) : Builder :=
  if idx > 0 then
    if isSingleOr expr then builder.WriteString " OR " else builder.WriteString " AND "
  else builder

/-- The unwrapped branch: the membership-test check, then the default
rendering.  `e.Values[0]` is an index expression and panics on an empty
slice. -/
def writePlain (h : Host) (expr : Expression) (builder : Builder) :
    Except String Builder :=
  match expr with
  | .IN Column Values =>
    match Values with
    | [] => .error "index out of range [0] with length 0"
    | .slice values :: _ =>
      if values.length > 1 then .ok (h.BuildIN Column Values builder)
      else .ok (h.Build expr builder)
    | _ :: _ => .ok (h.Build expr builder)
  | _ => .ok (h.Build expr builder)

/-- The wrapped branch: `(`, the child's own rendering, `)`. -/
def writeWrapped (h : Host) (expr : Expression) (builder : Builder) : Builder :=
  (h.Build expr (builder.WriteString "(")).WriteString ")"

/-- One iteration of the second loop, for the `n` children of the clause, on the
state made of the builder and `wrapInParentheses`. -/
def whereStep (h : Host) (n idx : Nat) (expr : Expression) (st : Builder × Bool) :
    Except String (Builder × Bool) :=
  let builder := writeJoiner idx expr st.1
  let wrapInParentheses := if n > 1 then wrapSwitch expr st.2 else st.2
  if wrapInParentheses then
    .ok (writeWrapped h expr builder, false)
  else
    match writePlain h expr builder with
    | .ok builder => .ok (builder, wrapInParentheses)
    | .error e => .error e

/-- The second loop of `RewriteWhere`, from position `idx` on. -/
def whereLoop (h : Host) (n : Nat) :
    List Expression → Nat → Builder × Bool → Except String (Builder × Bool)
  | [], _, st => .ok st
  | expr :: rest, idx, st =>
    match whereStep h n idx expr st with
    | .ok st => whereLoop h n rest (idx + 1) st
    | .error e => .error e

/-- `Dialector.RewriteWhere`. -/
def RewriteWhere (h : Host) (_d : Dialector) (c : Clause) (builder : Builder) :
    Except String Builder :=
  match c.Expression with
  | .Where Exprs =>
    let builder := builder.WriteString " WHERE "
    let Exprs := normalizeExprs Exprs
    match whereLoop h Exprs.length Exprs 0 (builder, false) with
    | .ok st => .ok st.1
    | .error e => .error e
  | _ => .ok builder

/-! ## DataTypeOf -/

/-- A read of the tag map, `field.TagSettings[key]` with its `ok` flag. -/
def lookupTag (tags : List (String × String)) (key : String) : Option String :=
  (tags.find? (fun p => p.1 = key)).map Prod.snd

/-- The builtin `delete` on the tag map. -/
def deleteTag (tags : List (String × String)) (key : String) : List (String × String) :=
  tags.filter (fun p => p.1 ≠ key)

/-- The conversion `int(defaultSize)` of a 64-bit `uint`. -/
def uintToInt (u : Nat) : Int :=
  if u % 2 ^ 64 < 2 ^ 63 then ((u % 2 ^ 64 : Nat) : Int)
  else ((u % 2 ^ 64 : Nat) : Int) - 2 ^ 64

/-- `strings.EqualFold`, on the ASCII letters. -/
def EqualFold (s t : String) : Bool := ToLower s = ToLower t

/-- The closure `addAutoIncrementWhenAvailable`. -/
def addAutoIncrementWhenAvailable (field : Field) (sqlType : String) : String :=
  if field.AutoIncrement then sqlType ++ " GENERATED BY DEFAULT AS IDENTITY" else sqlType

/-- The size cascade of the `schema.String` case. -/
def stringSize (d : Dialector) (field : Field) : Int :=
  let size := field.Size
  let defaultSize := d.Config.DefaultStringSize
  if size = 0 then
    if defaultSize > 0 then uintToInt defaultSize
    else
      let hasIndex := (lookupTag field.TagSettings "INDEX").getD "" ≠ ""
        ∨ (lookupTag field.TagSettings "UNIQUE").getD "" ≠ ""
      if field.PrimaryKey ∨ field.HasDefaultValue ∨ hasIndex then 191 else size
  else size

/-- The `default` case of the type switch. -/
def otherType (field : Field) : Except String String :=
  let sqlType := field.DataType
  let sqlType := if EqualFold sqlType "text" then "CLOB" else sqlType
  if sqlType = "" then
    .error ("invalid sql type " ++ field.FieldTypeName ++ " (" ++ field.FieldTypeString
      ++ ") for oracle")
  else
    let notNull := (lookupTag field.TagSettings "NOT NULL").getD ""
    let unique := (lookupTag field.TagSettings "UNIQUE").getD ""
    let additionalType := notNull ++ " " ++ unique
    let additionalType :=
      match lookupTag field.TagSettings "DEFAULT" with
      | some value =>
        "DEFAULT" ++ " " ++ value ++ " " ++ additionalType ++
          (match lookupTag field.TagSettings "COMMENT" with
           | some value => " COMMENT " ++ value
           | none => "")
      | none => additionalType
    .ok (sqlType ++ " " ++ additionalType)

/-- The `switch field.DataType` of `DataTypeOf`; the case labels are the
`schema.DataType` constants of the host (`schema.Bool = "bool"`, ...). -/
def typeSwitch (d : Dialector) (field : Field) : Except String String :=
  let dt := field.DataType
  if dt = "bool" ∨ dt = "int" ∨ dt = "uint" ∨ dt = "float" then
    let sqlType :=
      if dt = "float" then "FLOAT"
      else if field.Size ≤ 8 then "SMALLINT"
      else "INTEGER"
    .ok (addAutoIncrementWhenAvailable field sqlType)
  else if dt = "string" then
    let size := stringSize d field
    if size ≥ 2000 then .ok "CLOB"
    else .ok ("VARCHAR2(" ++ Itoa size ++ ")")
  else if dt = "time" then
    let sqlType := "TIMESTAMP"
    if field.NotNull ∨ field.PrimaryKey then .ok (sqlType ++ " NOT NULL") else .ok sqlType
  else if dt = "bytes" then .ok "BLOB"
  else otherType field

/-- `Dialector.DataTypeOf`: the field as the call leaves it (the `RESTRICT` tag
deleted) and the returned type, or the panic. -/
def DataTypeOf (d : Dialector) (field : Field) : Field × Except String String :=
  let field :=
    if (lookupTag field.TagSettings "RESTRICT").isSome then
      { field with TagSettings := deleteTag field.TagSettings "RESTRICT" }
    else field
  (field, typeSwitch d field)

/-! ## Initialize -/

/-- The `gorm.DB` members `Initialize` writes: the callback configuration set by
`callbacks.RegisterDefaultCallbacks`, the connection pool (nil or a handle) and
the `ClauseBuilders` map, whose entries are kept by the name of the builder. -/
structure DB where
  LastInsertIDReversed : Bool := false
  ConnPool : Option String := none
  ClauseBuilders : List (String × String) := []

/-- What `Initialize` gets from its collaborators: the pair returned by
`sql.Open(driverName, dsn)` and the error returned by
`db.Callback().Create().Replace("gorm:create", Create)`; an error is `none` when
it is nil. -/
structure Runtime where
  Open : String → String → Option String × Option String
  Replace : Option String

/-- The assignment `db.ClauseBuilders[k] = v`. -/
def setBuilder (m : List (String × String)) (k v : String) : List (String × String) :=
  (k, v) :: m.filter (fun p => p.1 ≠ k)

/-- `Dialector.Initialize`: the dialect's configuration after the call (the
receiver is a copy, the embedded `*Config` is shared, so the writes to it
stay), the `gorm.DB` after the call and the returned `err`. -/
def Initialize (rt : Runtime) (d : Dialector) (db : DB) : Dialector × DB × Option String :=
  let d : Dialector := ⟨{ d.Config with DefaultStringSize := 1024 }⟩
  let db : DB := { db with LastInsertIDReversed := true }
  let d : Dialector := ⟨{ d.Config with DriverName := "oracle" }⟩
  let opened := rt.Open d.Config.DriverName d.Config.DSN
  let db : DB :=
    match d.Config.Conn with
    | some conn => { db with ConnPool := some conn }
    | none => { db with ConnPool := opened.1 }
  let _err : Option String :=
    match d.Config.Conn with
    | some _ => none
    | none => opened.2
  let err : Option String := rt.Replace
  match err with
  | some e => (d, db, some e)
  | none =>
    let builders :=
      setBuilder (setBuilder db.ClauseBuilders "LIMIT" "RewriteLimit") "WHERE" "RewriteWhere"
    (d, { db with ClauseBuilders := builders }, err)

/-! ## Reading a run of RewriteWhere at one child -/

/-- The run of `RewriteWhere` on a clause of `n` children read at one of them:
the second loop over the children `pre` before it, then `render` for the joiner
and the child itself, then the loop over the children `post` after it. -/
def renderAround (h : Host) (n : Nat) (pre post : List Expression) (builder : Builder)
    (render : Builder → Builder) : Except String Builder :=
  match whereLoop h n pre 0 (builder.WriteString " WHERE ", false) with
  | .ok st =>
    match whereLoop h n post (pre.length + 1) (render st.1, false) with
    | .ok st => .ok st.1
    | .error e => .error e
  | .error e => .error e

/-! ## The text of a clause, as a total function

A second, closed description of the text `RewriteWhere` writes, worded as the
claims about it are (with their amendments) and independent of the loop
translated from the source, to state those claims against: the children in
their normalized order, each but the first after its joiner. -/

/-- Whether a child of a clause of `n` children is written in parentheses: the
clause has more than one child, and the child is a raw expression, or an
OR-group or AND-group of one raw expression, whose lower-cased SQL text
contains `and` or `or`. -/
def wrapsChild (n : Nat) (c : Expression) : Bool :=
  decide (1 < n) &&
    match c with
    | .Expr SQL _ => Contains (ToLower SQL) "and" || Contains (ToLower SQL) "or"
    | .OrConditions [.Expr SQL _] => Contains (ToLower SQL) "and" || Contains (ToLower SQL) "or"
    | .AndConditions [.Expr SQL _] => Contains (ToLower SQL) "and" || Contains (ToLower SQL) "or"
    | _ => false

/-- The text of one child without its joiner: `(`, its rendering, `)` when it
is written in parentheses; else the membership expansion when it is a
membership test whose first value is a list of more than one element; else its
default rendering. -/
def childText (h : Host) (n : Nat) (c : Expression) (builder : Builder) : Builder :=
  if wrapsChild n c = true then (h.Build c (builder.WriteString "(")).WriteString ")"
  else
    match c with
    | .IN Column (.slice values :: rest) =>
      if 1 < values.length then h.BuildIN Column (.slice values :: rest) builder
      else h.Build c builder
    | _ => h.Build c builder

/-- The joiner before a child that is not the first: ` OR ` for a
single-element OR-group, ` AND ` for every other child. -/
def joinerText (c : Expression) : String :=
  match c with
  | .OrConditions [_] => " OR "
  | _ => " AND "

/-- The text of children that are not first: each one is its joiner followed by
its own text. -/
def restText (h : Host) (n : Nat) (children : List Expression) (builder : Builder) :
    Builder :=
  children.foldl (fun b c => childText h n c (b.WriteString (joinerText c))) builder

/-- The text of all children of a clause: the first without joiner, then the
others. -/
def clauseText (h : Host) (n : Nat) : List Expression → Builder → Builder
  | [], builder => builder
  | c :: rest, builder => restText h n rest (childText h n c builder)

/-- A host to evaluate `RewriteWhere` on concrete clauses: a raw expression is
rendered as its SQL text, a group of one raw expression as that text, every
other expression as `<default>`, and the membership expansion as
`<expansion>`. -/
def sampleHost : Host where
  Build := fun expr builder =>
    match expr with
    | .Expr SQL _ => builder.WriteString SQL
    | .OrConditions [.Expr SQL _] => builder.WriteString SQL
    | .AndConditions [.Expr SQL _] => builder.WriteString SQL
    | _ => builder.WriteString "<default>"
  BuildIN := fun _ _ builder => builder.WriteString "<expansion>"


/-! ## Writer lemmas -/

theorem WriteString_WriteString (b : Builder) (s t : String) :
    (b.WriteString s).WriteString t = b.WriteString (s ++ t) := by
  cases b <;> simp [Builder.WriteString, String.append_assoc]

theorem WriteString_Statement (stmt : Statement) (s : String) :
    (Builder.Statement stmt).WriteString s = .Statement { stmt with SQL := stmt.SQL ++ s } :=
  rfl

theorem WriteString_empty (b : Builder) : b.WriteString "" = b := by
  cases b <;> simp [Builder.WriteString]

theorem writeOffset_eq (offset : Int) (b : Builder) :
    writeOffset offset b
      = b.WriteString (if offset > 0 then " OFFSET " ++ Itoa offset ++ " ROWS" else "") := by
  unfold writeOffset
  split
  · simp [WriteString_WriteString, String.append_assoc]
  · simp [WriteString_empty]

theorem writeFetch_eq (n : Int) (b : Builder) :
    (if n > 0 then writeFetch n b else b)
      = b.WriteString (if n > 0 then " FETCH NEXT " ++ Itoa n ++ " ROWS ONLY" else "") := by
  unfold writeFetch
  split
  · simp [WriteString_WriteString, String.append_assoc]
  · simp [WriteString_empty]

/-! ## Decimal digits -/

theorem digitChar_ne_D : ∀ m, m < 10 → Nat.digitChar m ≠ 'D' := by decide

theorem toDigitsCore_ne_D (fuel : Nat) : ∀ (n : Nat) (acc : List Char),
    (∀ c ∈ acc, c ≠ 'D') → ∀ c ∈ Nat.toDigitsCore 10 fuel n acc, c ≠ 'D' := by
  induction fuel with
  | zero => intro n acc hacc c hc; simpa [Nat.toDigitsCore] using hacc c hc
  | succ fuel ih =>
    intro n acc hacc c hc
    have hd : Nat.digitChar (n % 10) ≠ 'D' := digitChar_ne_D _ (Nat.mod_lt _ (by decide))
    have hacc2 : ∀ c ∈ Nat.digitChar (n % 10) :: acc, c ≠ 'D' := by
      intro c hc
      rcases List.mem_cons.mp hc with h | h
      · exact h ▸ hd
      · exact hacc c h
    simp only [Nat.toDigitsCore] at hc
    split at hc
    · exact hacc2 c hc
    · exact ih _ _ hacc2 c hc

theorem Itoa_ne_D (n : Int) (hn : 0 < n) : ∀ c ∈ (Itoa n).data, c ≠ 'D' := by
  cases n with
  | ofNat m =>
    intro c hc
    exact toDigitsCore_ne_D _ _ [] (by simp) c (by simpa [Itoa, Nat.repr, Nat.toDigits, List.asString] using hc)
  | negSucc m => exact absurd hn (by simp [Int.negSucc_lt_zero])

/-! ## RewriteLimit: pagination -/

theorem RewriteLimit_eq (d : Dialector) (builder : Builder) (offset n : Int)
    (lim : LimitValue) (hlim : lim = .int n ∨ lim = .ptr (some n)) :
    RewriteLimit d ⟨.Limit lim offset⟩ builder
      = .ok ((writeOrderBy d builder).WriteString
          ((if offset > 0 then " OFFSET " ++ Itoa offset ++ " ROWS" else "") ++
           (if n > 0 then " FETCH NEXT " ++ Itoa n ++ " ROWS ONLY" else ""))) := by
  rcases hlim with h | h <;> subst h <;>
    simp only [RewriteLimit, writeLimit, writeFetch_eq, writeOffset_eq,
      WriteString_WriteString]

theorem writeOrderBy_ordered (d : Dialector) (stmt : Statement)
    (hord : "ORDER BY" ∈ stmt.Clauses) :
    writeOrderBy d (.Statement stmt) = .Statement stmt := by
  simp [writeOrderBy, hord]

theorem writeOrderBy_primary (d : Dialector) (stmt : Statement) (f : Field)
    (hord : "ORDER BY" ∉ stmt.Clauses) (hs : stmt.Schema = some ⟨some f⟩) :
    writeOrderBy d (.Statement stmt)
      = (Builder.Statement stmt).WriteString ("ORDER BY " ++ f.DBName ++ " ") := by
  simp [writeOrderBy, hord, hs, Builder.WriteQuoted, QuoteTo, Builder.WriteByte,
    WriteString_WriteString, String.append_assoc]
  rfl

theorem writeOrderBy_dummy (d : Dialector) (stmt : Statement)
    (hord : "ORDER BY" ∉ stmt.Clauses)
    (hs : stmt.Schema = none ∨ stmt.Schema = some ⟨none⟩) :
    writeOrderBy d (.Statement stmt)
      = (Builder.Statement stmt).WriteString "ORDER BY (SELECT NULL FROM DUAL)" := by
  rcases hs with hs | hs <;>
    simp [writeOrderBy, hord, hs, DummyTableName, WriteString_WriteString]

theorem pagination_text_no_D (offset n : Int) :
    ∀ c ∈ ((if offset > 0 then " OFFSET " ++ Itoa offset ++ " ROWS" else "") ++
      (if n > 0 then " FETCH NEXT " ++ Itoa n ++ " ROWS ONLY" else "")).data, c ≠ 'D' := by
  intro c hc
  simp only [String.data_append, List.mem_append] at hc
  rcases hc with hc | hc
  · split at hc
    · rename_i ho
      simp only [String.data_append, List.mem_append] at hc
      rcases hc with (hc | hc) | hc
      · revert c; decide
      · exact Itoa_ne_D offset ho c hc
      · revert c; decide
    · simp at hc
  · split at hc
    · rename_i hn
      simp only [String.data_append, List.mem_append] at hc
      rcases hc with (hc | hc) | hc
      · revert c; decide
      · exact Itoa_ne_D n hn c hc
      · revert c; decide
    · simp at hc

/-- C1: with a nil `*int` limit `RewriteLimit` does not complete: the `*int`
assertion succeeds and the nil pointer is dereferenced, for every offset and
builder, whereas a limit of zero returns with the `ORDER BY` and `OFFSET`
text only. -/
theorem RewriteLimit_nil_limit_panics (d : Dialector) (offset : Int) (builder : Builder) :
    RewriteLimit d ⟨.Limit (.ptr none) offset⟩ builder
        = .error "invalid memory address or nil pointer dereference"
      ∧ RewriteLimit d ⟨.Limit (.ptr (some 0)) offset⟩ builder
        = .ok (writeOffset offset (writeOrderBy d builder))
      ∧ RewriteLimit d ⟨.Limit (.int 0) offset⟩ builder
        = .ok (writeOffset offset (writeOrderBy d builder)) := by
  refine ⟨rfl, ?_, ?_⟩ <;> simp [RewriteLimit, writeLimit]

/-- C7: on a statement that already has an `ORDER BY` clause, with the limit
given as a plain integer or as a non-nil pointer, `RewriteLimit` appends exactly
the `OFFSET` text (when the offset is positive) followed by the `FETCH NEXT`
text (when the limit is positive). -/
theorem RewriteLimit_offset_fetch (d : Dialector) (stmt : Statement) (offset n : Int)
    (lim : LimitValue) (hord : "ORDER BY" ∈ stmt.Clauses)
    (hlim : lim = .int n ∨ lim = .ptr (some n)) :
    RewriteLimit d ⟨.Limit lim offset⟩ (.Statement stmt)
      = .ok (.Statement { stmt with SQL := stmt.SQL ++
          ((if offset > 0 then " OFFSET " ++ Itoa offset ++ " ROWS" else "") ++
           (if n > 0 then " FETCH NEXT " ++ Itoa n ++ " ROWS ONLY" else "")) }) := by
  rw [RewriteLimit_eq d _ offset n lim hlim, writeOrderBy_ordered d stmt hord]
  rfl

/-- C7, at (offset=10, limit=5) with a plain limit and at (offset=0, limit=5)
with a pointer limit. -/
theorem RewriteLimit_offset_fetch_witness :
    "ORDER BY" ∈ ["SELECT", "FROM", "ORDER BY"]
      ∧ RewriteLimit ⟨{}⟩ ⟨.Limit (.int 5) 10⟩
          (.Statement ⟨"", [], ["SELECT", "FROM", "ORDER BY"], none⟩)
        = .ok (.Statement ⟨" OFFSET 10 ROWS FETCH NEXT 5 ROWS ONLY", [],
            ["SELECT", "FROM", "ORDER BY"], none⟩)
      ∧ RewriteLimit ⟨{}⟩ ⟨.Limit (.ptr (some 5)) 0⟩
          (.Statement ⟨"", [], ["SELECT", "FROM", "ORDER BY"], none⟩)
        = .ok (.Statement ⟨" FETCH NEXT 5 ROWS ONLY", [],
            ["SELECT", "FROM", "ORDER BY"], none⟩) :=
  ⟨by decide,
   RewriteLimit_offset_fetch ⟨{}⟩ ⟨"", [], ["SELECT", "FROM", "ORDER BY"], none⟩ 10 5 (.int 5)
    (by decide) (Or.inl rfl),
   RewriteLimit_offset_fetch ⟨{}⟩ ⟨"", [], ["SELECT", "FROM", "ORDER BY"], none⟩ 0 5
    (.ptr (some 5)) (by decide) (Or.inr rfl)⟩

/-- C8: on a host statement, with the limit given as a plain integer or as a
non-nil pointer: without an `ORDER BY` clause the written text begins with
`ORDER BY ` and the primary column name when the schema has a prioritized
primary field, and with `ORDER BY (SELECT NULL FROM DUAL)` when the schema is
nil or has none, whatever the offset and limit; with an `ORDER BY` clause the
written text does not contain `ORDER BY`. -/
theorem RewriteLimit_order_by (d : Dialector) (stmt : Statement) (offset n : Int)
    (lim : LimitValue) (hlim : lim = .int n ∨ lim = .ptr (some n)) :
    ∃ w : String,
      RewriteLimit d ⟨.Limit lim offset⟩ (.Statement stmt)
          = .ok (.Statement { stmt with SQL := stmt.SQL ++ w })
      ∧ ("ORDER BY" ∉ stmt.Clauses →
          (∀ f, stmt.Schema = some ⟨some f⟩ → 
              ("ORDER BY " ++ f.DBName).data <+: w.data)
          ∧ (stmt.Schema = none ∨ stmt.Schema = some ⟨none⟩ →
              "ORDER BY (SELECT NULL FROM DUAL)".data <+: w.data))
      ∧ ("ORDER BY" ∈ stmt.Clauses → ¬ ("ORDER BY".data <:+: w.data)) := by
  have hrun := RewriteLimit_eq d (.Statement stmt) offset n lim hlim
  have hD := pagination_text_no_D offset n
  generalize (if offset > 0 then " OFFSET " ++ Itoa offset ++ " ROWS" else "") ++
    (if n > 0 then " FETCH NEXT " ++ Itoa n ++ " ROWS ONLY" else "") = pag at hrun hD
  by_cases hord : "ORDER BY" ∈ stmt.Clauses
  · refine ⟨pag, ?_, fun h => absurd hord h, fun _ => ?_⟩
    · rw [hrun, writeOrderBy_ordered d stmt hord]; rfl
    · intro hinf
      exact hD 'D' (hinf.subset (by decide)) rfl
  · rcases hsch : stmt.Schema with _ | ⟨_ | f⟩
    · refine ⟨"ORDER BY (SELECT NULL FROM DUAL)" ++ pag, ?_, fun _ => ⟨?_, fun _ => ?_⟩,
        fun h => absurd h hord⟩
      · rw [hrun, writeOrderBy_dummy d stmt hord (Or.inl hsch), WriteString_WriteString]; simp [WriteString_Statement, hsch]
      · intro f hf; cases hf
      · exact ⟨pag.data, by simp⟩
    · refine ⟨"ORDER BY (SELECT NULL FROM DUAL)" ++ pag, ?_, fun _ => ⟨?_, fun _ => ?_⟩,
        fun h => absurd h hord⟩
      · rw [hrun, writeOrderBy_dummy d stmt hord (Or.inr hsch), WriteString_WriteString]; simp [WriteString_Statement, hsch]
      · intro f hf; cases hf
      · exact ⟨pag.data, by simp⟩
    · refine ⟨"ORDER BY " ++ f.DBName ++ " " ++ pag, ?_, fun _ => ⟨?_, fun h => ?_⟩,
        fun h => absurd h hord⟩
      · rw [hrun, writeOrderBy_primary d stmt f hord hsch, WriteString_WriteString]; simp [WriteString_Statement, hsch]
      · intro g hg
        cases hg
        exact ⟨(" " ++ pag).data, by simp⟩
      · rcases h with h | h <;> cases h

/-- C8, at offset 0 and limit 0 on a statement without an `ORDER BY` clause
whose schema has the primary field `id`; the text written there is
`ORDER BY id ` and nothing else. -/
theorem RewriteLimit_order_by_witness :
    (∃ w : String,
      RewriteLimit ⟨{}⟩ ⟨.Limit (.int 0) 0⟩
          (.Statement ⟨"", [], ["SELECT"], some ⟨some { DBName := "id" }⟩⟩)
          = .ok (.Statement ⟨"" ++ w, [], ["SELECT"], some ⟨some { DBName := "id" }⟩⟩)
      ∧ ("ORDER BY" ∉ ["SELECT"] →
          (∀ f, some (Schema.mk (some { DBName := "id" })) = some ⟨some f⟩ →
              ("ORDER BY " ++ f.DBName).data <+: w.data)
          ∧ (some (Schema.mk (some { DBName := "id" })) = none
              ∨ some (Schema.mk (some { DBName := "id" })) = some ⟨none⟩ →
              "ORDER BY (SELECT NULL FROM DUAL)".data <+: w.data))
      ∧ ("ORDER BY" ∈ ["SELECT"] → ¬ ("ORDER BY".data <:+: w.data)))
    ∧ RewriteLimit ⟨{}⟩ ⟨.Limit (.int 0) 0⟩
          (.Statement ⟨"", [], ["SELECT"], some ⟨some { DBName := "id" }⟩⟩)
        = .ok (.Statement ⟨"ORDER BY id ", [], ["SELECT"], some ⟨some { DBName := "id" }⟩⟩) :=
  ⟨RewriteLimit_order_by ⟨{}⟩ ⟨"", [], ["SELECT"], some ⟨some { DBName := "id" }⟩⟩ 0 0 (.int 0)
    (Or.inl rfl), rfl⟩

/-! ## DataTypeOf: the type resolver -/

theorem lookupTag_deleteTag_ne (tags : List (String × String)) (key k : String)
    (hne : key ≠ k) : lookupTag (deleteTag tags k) key = lookupTag tags key := by
  induction tags with
  | nil => rfl
  | cons p tags ih =>
    simp only [lookupTag, deleteTag] at ih ⊢
    by_cases hp : p.1 = k
    · have hpk : ¬ p.1 = key := fun h => hne (h.symm.trans hp)
      rw [List.filter_cons_of_neg (by simp [hp]), List.find?_cons_of_neg _ (by simp [hpk])]
      exact ih
    · rw [List.filter_cons_of_pos (by simp [hp])]
      by_cases hpk : p.1 = key
      · rw [List.find?_cons_of_pos _ (by simp [hpk]), List.find?_cons_of_pos _ (by simp [hpk])]
      · rw [List.find?_cons_of_neg _ (by simp [hpk]), List.find?_cons_of_neg _ (by simp [hpk])]
        exact ih

theorem DataTypeOf_snd (d : Dialector) (field : Field) :
    (DataTypeOf d field).2 = typeSwitch d { field with TagSettings :=
      (if (lookupTag field.TagSettings "RESTRICT").isSome
        then deleteTag field.TagSettings "RESTRICT" else field.TagSettings) } := by
  unfold DataTypeOf
  split <;> rfl

theorem lookupTag_after_restrict (tags : List (String × String)) (key : String)
    (hne : key ≠ "RESTRICT") :
    lookupTag (if (lookupTag tags "RESTRICT").isSome then deleteTag tags "RESTRICT" else tags) key
      = lookupTag tags key := by
  split
  · exact lookupTag_deleteTag_ne tags key "RESTRICT" hne
  · rfl

/-- C3: for a string field of declared size 0, not a primary key, without
default value and without `INDEX` and `UNIQUE` tags, under a dialect with no
default string size, `DataTypeOf` returns `VARCHAR2(0)`: a bounded type with the
parenthesized size zero, not an unbounded type. -/
theorem DataTypeOf_unsized_string (d : Dialector) (field : Field)
    (hkind : field.DataType = "string") (hsize : field.Size = 0)
    (hdefault : d.Config.DefaultStringSize = 0)
    (hpk : field.PrimaryKey = false) (hdv : field.HasDefaultValue = false)
    (hindex : lookupTag field.TagSettings "INDEX" = none)
    (hunique : lookupTag field.TagSettings "UNIQUE" = none) :
    (DataTypeOf d field).2 = .ok "VARCHAR2(0)"
    ∧ Contains "VARCHAR2(0)" "(0)" = true := by
  refine ⟨?_, by decide⟩
  rw [DataTypeOf_snd]
  simp [typeSwitch, stringSize, hkind, hsize, hdefault, hpk, hdv,
    lookupTag_after_restrict _ _ (by decide : "INDEX" ≠ "RESTRICT"),
    lookupTag_after_restrict _ _ (by decide : "UNIQUE" ≠ "RESTRICT"), hindex, hunique]
  rfl

/-- C3, on a string field with a `COMMENT` tag only. -/
theorem DataTypeOf_unsized_string_witness :
    (DataTypeOf ⟨{}⟩ { DataType := "string", TagSettings := [("COMMENT", "the name")] }).2
      = .ok "VARCHAR2(0)"
    ∧ Contains "VARCHAR2(0)" "(0)" = true :=
  DataTypeOf_unsized_string ⟨{}⟩
    { DataType := "string", TagSettings := [("COMMENT", "the name")] }
    rfl rfl rfl rfl rfl rfl rfl

theorem otherType_fails_iff (field : Field) :
    (otherType field
        = .error ("invalid sql type " ++ field.FieldTypeName ++ " (" ++ field.FieldTypeString
            ++ ") for oracle") ↔ field.DataType = "")
    ∧ (field.DataType ≠ "" → ∃ sqlType, otherType field = .ok sqlType) := by
  unfold otherType
  by_cases hfold : EqualFold field.DataType "text" = true
  · have hne : field.DataType ≠ "" := by
      intro h
      rw [h] at hfold
      exact absurd hfold (by decide)
    simp [hfold, hne]
  · by_cases hempty : field.DataType = ""
    · have h0 : EqualFold "" "text" = false := by decide
      simp [hempty, h0]
    · simp [hfold, hempty]

theorem typeSwitch_fails_iff (d : Dialector) (field : Field) :
    (typeSwitch d field
        = .error ("invalid sql type " ++ field.FieldTypeName ++ " (" ++ field.FieldTypeString
            ++ ") for oracle") ↔ field.DataType = "")
    ∧ (field.DataType ≠ "" → ∃ sqlType, typeSwitch d field = .ok sqlType) := by
  unfold typeSwitch
  by_cases h1 : field.DataType = "bool" ∨ field.DataType = "int" ∨ field.DataType = "uint"
      ∨ field.DataType = "float"
  · have hne : field.DataType ≠ "" := by
      rcases h1 with h | h | h | h <;> rw [h] <;> decide
    simp [h1, hne]
  · by_cases h2 : field.DataType = "string"
    · have hne : field.DataType ≠ "" := by rw [h2]; decide
      by_cases hs : stringSize d field ≥ 2000 <;> simp [h1, h2, hs, hne]
    · by_cases h3 : field.DataType = "time"
      · have hne : field.DataType ≠ "" := by rw [h3]; decide
        by_cases hs : field.NotNull = true ∨ field.PrimaryKey = true <;>
          simp [h1, h2, h3, hs, hne]
      · by_cases h4 : field.DataType = "bytes"
        · have hne : field.DataType ≠ "" := by rw [h4]; decide
          simp [h1, h2, h3, h4, hne]
        · simp only [h1, h2, h3, h4, if_false]
          exact otherType_fails_iff field


/-- C9: `DataTypeOf` panics with the invalid-type message exactly when the
field's data type is none of `bool`, `int`, `uint`, `float`, `string`, `time`,
`bytes` and is the empty string; on every other field it returns a type. -/
theorem DataTypeOf_fails_iff (d : Dialector) (field : Field) :
    ((DataTypeOf d field).2
        = .error ("invalid sql type " ++ field.FieldTypeName ++ " (" ++ field.FieldTypeString
            ++ ") for oracle")
      ↔ (field.DataType ∉ ["bool", "int", "uint", "float", "string", "time", "bytes"]
          ∧ field.DataType = ""))
    ∧ (¬ (field.DataType ∉ ["bool", "int", "uint", "float", "string", "time", "bytes"]
          ∧ field.DataType = "")
        → ∃ sqlType, (DataTypeOf d field).2 = .ok sqlType) := by
  have hcond : (field.DataType ∉ ["bool", "int", "uint", "float", "string", "time", "bytes"]
      ∧ field.DataType = "") ↔ field.DataType = "" := by
    refine ⟨fun h => h.2, fun h => ⟨?_, h⟩⟩
    rw [h]; decide
  rw [hcond, DataTypeOf_snd]
  exact typeSwitch_fails_iff d _

/-- C10: for a `bool`, `int` or `uint` field `DataTypeOf` returns `SMALLINT` when
the size is at most 8 and `INTEGER` when it is larger, for a `float` field
`FLOAT`, in each case followed by ` GENERATED BY DEFAULT AS IDENTITY` exactly
when the field is auto-increment. -/
theorem DataTypeOf_numeric (d : Dialector) (field : Field)
    (hk : field.DataType ∈ ["bool", "int", "uint", "float"]) :
    ∃ base : String,
      (field.DataType = "float" → base = "FLOAT")
      ∧ (field.DataType ≠ "float" → field.Size ≤ 8 → base = "SMALLINT")
      ∧ (field.DataType ≠ "float" → field.Size > 8 → base = "INTEGER")
      ∧ (DataTypeOf d field).2
          = .ok (base ++ if field.AutoIncrement then " GENERATED BY DEFAULT AS IDENTITY" else "")
      ∧ ∀ sqlType, (DataTypeOf d field).2 = .ok sqlType → base.data <+: sqlType.data := by
  have h1 : field.DataType = "bool" ∨ field.DataType = "int" ∨ field.DataType = "uint"
      ∨ field.DataType = "float" := by simpa using hk
  have hrun : (DataTypeOf d field).2
      = .ok ((if field.DataType = "float" then "FLOAT"
              else if field.Size ≤ 8 then "SMALLINT" else "INTEGER")
          ++ if field.AutoIncrement then " GENERATED BY DEFAULT AS IDENTITY" else "") := by
    rw [DataTypeOf_snd]
    simp only [typeSwitch, h1, if_true, addAutoIncrementWhenAvailable]
    split <;> simp
  refine ⟨_, ?_, ?_, ?_, hrun, ?_⟩
  · intro h; simp [h]
  · intro h hs; simp [h, hs]
  · intro h hs; simp [h, not_le.mpr hs]
  · intro sqlType hs
    rw [hrun] at hs
    cases hs
    exact ⟨_, (String.data_append _ _).symm⟩

/-- C10, on an auto-increment `int` field of size 8. -/
theorem DataTypeOf_numeric_witness :
    "int" ∈ ["bool", "int", "uint", "float"]
    ∧ (∃ base : String,
      ("int" = "float" → base = "FLOAT")
      ∧ ("int" ≠ "float" → (8 : Int) ≤ 8 → base = "SMALLINT")
      ∧ ("int" ≠ "float" → (8 : Int) > 8 → base = "INTEGER")
      ∧ (DataTypeOf ⟨{}⟩ { DataType := "int", Size := 8, AutoIncrement := true }).2
          = .ok (base ++ if true = true then " GENERATED BY DEFAULT AS IDENTITY" else "")
      ∧ ∀ sqlType,
          (DataTypeOf ⟨{}⟩ { DataType := "int", Size := 8, AutoIncrement := true }).2
            = .ok sqlType → base.data <+: sqlType.data)
    ∧ (DataTypeOf ⟨{}⟩ { DataType := "int", Size := 8, AutoIncrement := true }).2
        = .ok "SMALLINT GENERATED BY DEFAULT AS IDENTITY" :=
  ⟨by decide,
   DataTypeOf_numeric ⟨{}⟩ { DataType := "int", Size := 8, AutoIncrement := true } (by decide),
   rfl⟩

/-! ## RewriteWhere: the predicate rewriter -/

theorem swapFirst_length (Exprs : List Expression) (idx : Nat) :
    (swapFirst Exprs idx).length = Exprs.length := by
  unfold swapFirst
  split <;> simp

theorem normalizeFrom_length (Exprs : List Expression) :
    ∀ (rest : List Expression) (idx : Nat),
      (normalizeFrom Exprs rest idx).length = Exprs.length := by
  intro rest
  induction rest with
  | nil => intro idx; rfl
  | cons expr rest ih =>
    intro idx
    simp only [normalizeFrom]
    split
    · split
      · exact swapFirst_length _ _
      · rfl
    · exact ih _

theorem normalizeExprs_length (Exprs : List Expression) :
    (normalizeExprs Exprs).length = Exprs.length :=
  normalizeFrom_length Exprs Exprs 0

theorem swap_cons_perm : ∀ (t : List Expression) (k : Nat) (a b : Expression),
    t[k]? = some b → (b :: t.set k a).Perm (a :: t) := by
  intro t
  induction t with
  | nil => intro k a b hb; simp at hb
  | cons y t ih =>
    intro k a b hb
    cases k with
    | zero =>
      have hyb : y = b := by simpa using hb
      subst hyb
      exact List.Perm.swap _ _ _
    | succ k =>
      have hb2 : t[k]? = some b := by simpa using hb
      have h1 : (b :: y :: t.set k a).Perm (y :: b :: t.set k a) := List.Perm.swap _ _ _
      have h2 : (y :: b :: t.set k a).Perm (y :: a :: t) := List.Perm.cons _ (ih k a b hb2)
      have h3 : (y :: a :: t).Perm (a :: y :: t) := List.Perm.swap _ _ _
      exact (h1.trans h2).trans h3

theorem swapFirst_perm (Exprs : List Expression) (idx : Nat) :
    (swapFirst Exprs idx).Perm Exprs := by
  unfold swapFirst
  split
  · rename_i a b ha hb
    cases Exprs with
    | nil => simp at ha
    | cons x t =>
      have hxa : x = a := by simpa using ha
      subst hxa
      cases idx with
      | zero =>
        have hxb : x = b := by simpa using hb
        subst hxb
        exact List.Perm.refl _
      | succ k =>
        have hb2 : t[k]? = some b := by simpa using hb
        exact swap_cons_perm t k x b hb2
  · exact List.Perm.refl _

theorem normalizeFrom_perm (Exprs : List Expression) :
    ∀ (rest : List Expression) (idx : Nat), (normalizeFrom Exprs rest idx).Perm Exprs := by
  intro rest
  induction rest with
  | nil => intro idx; exact List.Perm.refl _
  | cons expr rest ih =>
    intro idx
    simp only [normalizeFrom]
    split
    · split
      · exact swapFirst_perm _ _
      · exact List.Perm.refl _
    · exact ih _

theorem normalizeExprs_perm (Exprs : List Expression) :
    (normalizeExprs Exprs).Perm Exprs :=
  normalizeFrom_perm Exprs Exprs 0

theorem normalizeExprs_split (Exprs : List Expression) (c : Expression) (hc : c ∈ Exprs) :
    ∃ pre post, normalizeExprs Exprs = pre ++ c :: post :=
  List.append_of_mem ((normalizeExprs_perm Exprs).mem_iff.mpr hc)

theorem whereStep_snd (h : Host) (n idx : Nat) (expr : Expression) (st st' : Builder × Bool)
    (hs : whereStep h n idx expr st = .ok st') : st'.2 = false := by
  unfold whereStep at hs
  simp only at hs
  generalize (if n > 1 then wrapSwitch expr st.2 else st.2) = w at hs
  cases w with
  | true => simp at hs; rw [← hs]
  | false =>
    cases hp : writePlain h expr (writeJoiner idx expr st.1) with
    | error e => simp [hp] at hs
    | ok b => simp [hp] at hs; rw [← hs]

theorem whereLoop_snd (h : Host) (n : Nat) :
    ∀ (l : List Expression) (idx : Nat) (st st' : Builder × Bool),
      st.2 = false → whereLoop h n l idx st = .ok st' → st'.2 = false := by
  intro l
  induction l with
  | nil => intro idx st st' h0 hs; simp only [whereLoop] at hs; cases hs; exact h0
  | cons expr rest ih =>
    intro idx st st' _ hs
    simp only [whereLoop] at hs
    split at hs
    · rename_i st1 h1
      exact ih _ st1 st' (whereStep_snd h n idx expr st st1 h1) hs
    · cases hs

theorem whereLoop_append (h : Host) (n : Nat) :
    ∀ (pre post : List Expression) (idx : Nat) (st : Builder × Bool),
      whereLoop h n (pre ++ post) idx st
        = match whereLoop h n pre idx st with
          | .ok st' => whereLoop h n post (idx + pre.length) st'
          | .error e => .error e := by
  intro pre
  induction pre with
  | nil => intro post idx st; simp [whereLoop]
  | cons expr rest ih =>
    intro post idx st
    show whereLoop h n (expr :: (rest ++ post)) idx st = _
    simp only [whereLoop, List.length_cons]
    cases hstep : whereStep h n idx expr st with
    | error e => rfl
    | ok st1 =>
      simp only [ih]
      rw [show idx + 1 + rest.length = idx + (rest.length + 1) by omega]

theorem whereStep_error (h : Host) (n idx : Nat) (expr : Expression) (st : Builder × Bool)
    (e : String) (hs : whereStep h n idx expr st = .error e) :
    e = "index out of range [0] with length 0" := by
  unfold whereStep at hs
  simp only at hs
  generalize (if n > 1 then wrapSwitch expr st.2 else st.2) = w at hs
  cases w with
  | true => simp at hs
  | false =>
    cases hp : writePlain h expr (writeJoiner idx expr st.1) with
    | ok b => simp [hp] at hs
    | error e2 =>
      simp [hp] at hs
      subst hs
      unfold writePlain at hp
      split at hp
      · split at hp
        · cases hp; rfl
        · split at hp <;> cases hp
        · cases hp
      · cases hp

theorem whereLoop_error (h : Host) (n : Nat) :
    ∀ (l : List Expression) (idx : Nat) (st : Builder × Bool) (e : String),
      whereLoop h n l idx st = .error e → e = "index out of range [0] with length 0" := by
  intro l
  induction l with
  | nil => intro idx st e hs; simp [whereLoop] at hs
  | cons expr rest ih =>
    intro idx st e hs
    simp only [whereLoop] at hs
    cases hstep : whereStep h n idx expr st with
    | ok st1 => rw [hstep] at hs; exact ih _ _ _ hs
    | error e2 =>
      rw [hstep] at hs
      cases hs
      exact whereStep_error h n idx expr st _ hstep

theorem whereStep_empty_IN (h : Host) (n idx : Nat) (Column : Value) (b : Builder) :
    whereStep h n idx (.IN Column []) (b, false)
      = .error "index out of range [0] with length 0" := by
  simp [whereStep, wrapSwitch, writePlain]

/-- C2: on every clause that has a membership test with an empty value list
among its children, `RewriteWhere` does not complete: `e.Values[0]` is out of
range. -/
theorem RewriteWhere_empty_IN_panics (h : Host) (d : Dialector) (Exprs : List Expression)
    (Column : Value) (builder : Builder) (hmem : .IN Column [] ∈ Exprs) :
    RewriteWhere h d ⟨.Where Exprs⟩ builder
      = .error "index out of range [0] with length 0" := by
  obtain ⟨pre, post, hn⟩ := normalizeExprs_split Exprs _ hmem
  simp only [RewriteWhere, hn, whereLoop_append]
  cases hpre : whereLoop h (pre ++ .IN Column [] :: post).length pre 0
      (builder.WriteString " WHERE ", false) with
  | error e => rw [whereLoop_error h _ pre 0 _ e hpre]
  | ok st =>
    have hst : st = (st.1, false) := by
      have := whereLoop_snd h _ pre 0 _ st rfl hpre
      cases st; simp_all
    simp only [whereLoop]
    rw [hst, whereStep_empty_IN]

/-- C2, on `id IN ()` alone and after `name = 'a'`. -/
theorem RewriteWhere_empty_IN_panics_witness :
    Expression.IN (.str "id") [] ∈ [Expression.Expr "name = 'a'" [], .IN (.str "id") []]
    ∧ RewriteWhere sampleHost ⟨{}⟩
        ⟨.Where [.Expr "name = 'a'" [], .IN (.str "id") []]⟩ (.Writer "")
      = .error "index out of range [0] with length 0"
    ∧ RewriteWhere sampleHost ⟨{}⟩ ⟨.Where [.IN (.str "id") []]⟩ (.Writer "")
      = .error "index out of range [0] with length 0" :=
  ⟨by simp,
   RewriteWhere_empty_IN_panics sampleHost ⟨{}⟩ [.Expr "name = 'a'" [], .IN (.str "id") []]
     (.str "id") (.Writer "") (by simp),
   RewriteWhere_empty_IN_panics sampleHost ⟨{}⟩ [.IN (.str "id") []]
     (.str "id") (.Writer "") (by simp)⟩

/-- C4, as stated, fails: a membership test with the two values `1` and `2` is
not rendered through the expansion routine, and one whose single value is the
list `[1, 2]` is not rendered by its default rendering. -/
theorem RewriteWhere_membership_counterexample :
    ¬ (RewriteWhere sampleHost ⟨{}⟩ ⟨.Where [.IN (.str "id") [.int 1, .int 2]]⟩ (.Writer "")
        = renderAround sampleHost 1 [] [] (.Writer "")
            (fun b => sampleHost.BuildIN (.str "id") [.int 1, .int 2] b))
    ∧ ¬ (RewriteWhere sampleHost ⟨{}⟩
          ⟨.Where [.IN (.str "id") [.slice [.int 1, .int 2]]]⟩ (.Writer "")
        = renderAround sampleHost 1 [] [] (.Writer "")
            (fun b => sampleHost.Build (.IN (.str "id") [.slice [.int 1, .int 2]]) b)) := by
  constructor
  · intro h
    have h2 := congrArg (fun r => match r with | .ok b => b.text | .error _ => "") h
    revert h2
    decide
  · intro h
    have h2 := congrArg (fun r => match r with | .ok b => b.text | .error _ => "") h
    revert h2
    decide

theorem isAnchor_eq_false_iff (e : Expression) :
    isAnchor e = false ↔ ∃ es, e = .OrConditions es ∧ es.length ≤ 1 := by
  cases e <;> simp [isAnchor]

theorem swapFirst_head (pre rest : List Expression) (e : Expression) (hpre : pre ≠ []) :
    (swapFirst (pre ++ e :: rest) pre.length)[0]? = some e := by
  cases pre with
  | nil => exact absurd rfl hpre
  | cons a pre =>
    have hget : (a :: pre ++ e :: rest)[(a :: pre).length]? = some e := by
      rw [List.getElem?_append_right (Nat.le_refl _)]
      simp
    simp only [swapFirst, hget]
    simp

theorem normalizeFrom_head (Exprs : List Expression) :
    ∀ (rest pre : List Expression), Exprs = pre ++ rest →
      (∀ e ∈ pre, isAnchor e = false) →
      ∀ e0, (normalizeFrom Exprs rest pre.length)[0]? = some e0 → isAnchor e0 = false →
      ∀ e ∈ Exprs, isAnchor e = false := by
  intro rest
  induction rest with
  | nil =>
    intro pre hE hpre e0 _ _ e he
    rw [hE, List.append_nil] at he
    exact hpre e he
  | cons x rest ih =>
    intro pre hE hpre e0 h0 ha0
    simp only [normalizeFrom] at h0
    by_cases hx : isAnchor x = true
    · exfalso
      simp only [hx, if_true] at h0
      by_cases hidx : pre.length ≠ 0
      · rw [if_pos hidx] at h0
        rw [hE, swapFirst_head pre rest x (by intro h; simp [h] at hidx)] at h0
        cases h0
        rw [ha0] at hx
        cases hx
      · rw [if_neg hidx] at h0
        have hnil : pre = [] := by
          cases pre with
          | nil => rfl
          | cons a l => simp at hidx
        subst hnil
        rw [hE] at h0
        have hxe : x = e0 := by simpa using h0
        rw [hxe, ha0] at hx
        cases hx
    · simp only [hx] at h0
      have hxf : isAnchor x = false := by simpa using hx
      have hpre2 : ∀ e ∈ pre ++ [x], isAnchor e = false := by
        intro e he
        rcases List.mem_append.mp he with h | h
        · exact hpre e h
        · simp at h; subst h; exact hxf
      have := ih (pre ++ [x]) (by simp [hE]) hpre2 e0 (by simpa using h0) ha0
      exact this

/-- C5, as stated, fails: of the two children `OR (a = 1)` and an empty
OR-group, the leading child after the normalization is the single-element
OR-group, and the second child is not a single-element OR-group. -/
theorem normalize_leading_counterexample :
    ¬ (2 ≤ [Expression.OrConditions [.Expr "a = 1" []], .OrConditions []].length →
        ∀ x, (normalizeExprs [.OrConditions [.Expr "a = 1" []], .OrConditions []])[0]?
            = some (.OrConditions [x]) →
          ∀ e ∈ [Expression.OrConditions [.Expr "a = 1" []], .OrConditions []],
            ∃ y, e = .OrConditions [y]) := by
  intro h
  obtain ⟨y, hy⟩ := h (by decide) (.Expr "a = 1" []) rfl (.OrConditions []) (by simp)
  cases hy

/-- C5, amended: for a clause with at least two children, the child at
position 0 after the normalization is a single-element OR-group only if every
child is an OR-group of at most one element. -/
theorem normalize_leading_single_or (Exprs : List Expression) (x : Expression)
    (_hlen : 2 ≤ Exprs.length)
    (h0 : (normalizeExprs Exprs)[0]? = some (.OrConditions [x])) :
    ∀ e ∈ Exprs, ∃ es, e = .OrConditions es ∧ es.length ≤ 1 := by
  intro e he
  exact (isAnchor_eq_false_iff e).mp
    (normalizeFrom_head Exprs Exprs [] rfl (by simp) _ h0 (by simp [isAnchor]) e he)

/-- C5, amended, on two single-element OR-groups. -/
theorem normalize_leading_single_or_witness :
    2 ≤ [Expression.OrConditions [.Expr "a = 1" []], .OrConditions [.Expr "b = 2" []]].length
    ∧ (normalizeExprs [.OrConditions [.Expr "a = 1" []], .OrConditions [.Expr "b = 2" []]])[0]?
        = some (.OrConditions [.Expr "a = 1" []])
    ∧ ∀ e ∈ [Expression.OrConditions [.Expr "a = 1" []], .OrConditions [.Expr "b = 2" []]],
        ∃ es, e = .OrConditions es ∧ es.length ≤ 1 :=
  ⟨by decide, rfl,
   normalize_leading_single_or
     [.OrConditions [.Expr "a = 1" []], .OrConditions [.Expr "b = 2" []]] (.Expr "a = 1" [])
     (by decide) rfl⟩

/-- C6, as stated, fails: in `a = 1 OR b = 2` the second child is a
single-element OR-group and is written without parentheses. -/
theorem RewriteWhere_group_counterexample :
    ¬ (RewriteWhere sampleHost ⟨{}⟩
          ⟨.Where [.Expr "a = 1" [], .OrConditions [.Expr "b = 2" []]]⟩ (.Writer "")
        = renderAround sampleHost 2 [.Expr "a = 1" []] [] (.Writer "") (fun b =>
            (sampleHost.Build (.OrConditions [.Expr "b = 2" []])
              ((writeJoiner 1 (.OrConditions [.Expr "b = 2" []]) b).WriteString "(")).WriteString
              ")")) := by
  intro h
  have h2 := congrArg (fun r => match r with | .ok b => b.text | .error _ => "") h
  revert h2
  decide

/-! ## DataTypeOf: strings, tags and other types -/

theorem stringSize_after_restrict (d : Dialector) (field : Field) :
    stringSize d { field with TagSettings :=
      (if (lookupTag field.TagSettings "RESTRICT").isSome
        then deleteTag field.TagSettings "RESTRICT" else field.TagSettings) }
      = stringSize d field := by
  simp only [stringSize,
    lookupTag_after_restrict _ _ (by decide : "INDEX" ≠ "RESTRICT"),
    lookupTag_after_restrict _ _ (by decide : "UNIQUE" ≠ "RESTRICT")]

theorem typeSwitch_string (d : Dialector) (field : Field) (hkind : field.DataType = "string") :
    typeSwitch d field
      = .ok (if stringSize d field ≥ 2000 then "CLOB"
             else "VARCHAR2(" ++ Itoa (stringSize d field) ++ ")") := by
  unfold typeSwitch
  by_cases hs : stringSize d field ≥ 2000 <;> simp [hkind, hs]

theorem DataTypeOf_string (d : Dialector) (field : Field) (hkind : field.DataType = "string") :
    (DataTypeOf d field).2
      = .ok (if stringSize d field ≥ 2000 then "CLOB"
             else "VARCHAR2(" ++ Itoa (stringSize d field) ++ ")") := by
  rw [DataTypeOf_snd]
  have h := typeSwitch_string d { field with TagSettings :=
      (if (lookupTag field.TagSettings "RESTRICT").isSome
        then deleteTag field.TagSettings "RESTRICT" else field.TagSettings) } hkind
  rw [h, stringSize_after_restrict]

theorem stringSize_declared (d : Dialector) (field : Field) (hsize : field.Size ≠ 0) :
    stringSize d field = field.Size := by
  simp [stringSize, hsize]

theorem stringSize_default (d : Dialector) (field : Field) (hsize : field.Size = 0)
    (hpos : 0 < d.Config.DefaultStringSize) :
    stringSize d field = uintToInt d.Config.DefaultStringSize := by
  simp [stringSize, hsize, hpos]

theorem uintToInt_small (u : Nat) (hu : u < 2 ^ 63) : uintToInt u = (u : Int) := by
  have h1 : u % 2 ^ 64 = u := Nat.mod_eq_of_lt (by omega)
  unfold uintToInt
  rw [h1, if_pos hu]

theorem uintToInt_large (u : Nat) (hlo : 2 ^ 63 ≤ u) (hhi : u < 2 ^ 64) :
    uintToInt u = (u : Int) - 2 ^ 64 := by
  have h1 : u % 2 ^ 64 = u := Nat.mod_eq_of_lt hhi
  have h2 : ¬ u < 2 ^ 63 := by omega
  unfold uintToInt
  rw [h1, if_neg h2]

/-- The size cascade where it gives what the declared or the default size
says: a nonzero declared size, or a default size below `2 ^ 63`. -/
theorem DataTypeOf_string_resolved (d : Dialector) (field : Field) (r : Int)
    (hkind : field.DataType = "string")
    (hr : (field.Size ≠ 0 ∧ r = field.Size)
      ∨ (field.Size = 0 ∧ 0 < d.Config.DefaultStringSize
          ∧ d.Config.DefaultStringSize < 2 ^ 63 ∧ r = (d.Config.DefaultStringSize : Int))) :
    (DataTypeOf d field).2
      = .ok (if r ≥ 2000 then "CLOB" else "VARCHAR2(" ++ Itoa r ++ ")") := by
  have hsz : stringSize d field = r := by
    rcases hr with ⟨h1, h2⟩ | ⟨h1, h2, h3, h4⟩
    · rw [stringSize_declared d field h1, h2]
    · rw [stringSize_default d field h1 h2, uintToInt_small _ h3, h4]
  rw [DataTypeOf_string d field hkind, hsz]

/-- C11: a configured default string size of `2 ^ 63` or more does not give
`CLOB`: for a string field of declared size 0 the conversion `int(defaultSize)`
wraps to a negative size, which is below 2000 and is printed in `VARCHAR2(...)`. -/
theorem DataTypeOf_string_default_wraps (d : Dialector) (field : Field)
    (hkind : field.DataType = "string") (hsize : field.Size = 0)
    (hlo : 2 ^ 63 ≤ d.Config.DefaultStringSize) (hhi : d.Config.DefaultStringSize < 2 ^ 64) :
    (DataTypeOf d field).2
      = .ok ("VARCHAR2(" ++ Itoa ((d.Config.DefaultStringSize : Int) - 2 ^ 64) ++ ")") := by
  have hpos : 0 < d.Config.DefaultStringSize := by omega
  rw [DataTypeOf_string d field hkind, stringSize_default d field hsize hpos,
    uintToInt_large _ hlo hhi]
  have hlt : ¬ ((d.Config.DefaultStringSize : Int) - 2 ^ 64 ≥ 2000) := by omega
  rw [if_neg hlt]

/-- C11, at the default string size `2 ^ 63`, where the claim gives `CLOB`. -/
theorem DataTypeOf_string_default_wraps_witness :
    (DataTypeOf ⟨{ DefaultStringSize := 9223372036854775808 }⟩ { DataType := "string" }).2
      = .ok "VARCHAR2(-9223372036854775808)" :=
  (DataTypeOf_string_default_wraps ⟨{ DefaultStringSize := 9223372036854775808 }⟩
    { DataType := "string" } rfl rfl (by decide) (by decide)).trans rfl

/-- C12: for a string field of declared size 0 under a dialect with no default
string size, `DataTypeOf` returns `VARCHAR2(191)` when the field is a primary
key, has a default value, or has a non-empty `INDEX` or `UNIQUE` tag. -/
theorem DataTypeOf_string_fallback (d : Dialector) (field : Field)
    (hkind : field.DataType = "string") (hsize : field.Size = 0)
    (hdefault : d.Config.DefaultStringSize = 0)
    (hflag : field.PrimaryKey = true ∨ field.HasDefaultValue = true
      ∨ (∃ v, v ≠ "" ∧ lookupTag field.TagSettings "INDEX" = some v)
      ∨ (∃ v, v ≠ "" ∧ lookupTag field.TagSettings "UNIQUE" = some v)) :
    (DataTypeOf d field).2 = .ok "VARCHAR2(191)" := by
  have hsz : stringSize d field = 191 := by
    rcases hflag with h | h | ⟨v, hv, h⟩ | ⟨v, hv, h⟩
    · simp [stringSize, hsize, hdefault, h]
    · simp [stringSize, hsize, hdefault, h]
    · simp [stringSize, hsize, hdefault, h, hv]
    · simp [stringSize, hsize, hdefault, h, hv]
  rw [DataTypeOf_string d field hkind, hsz]
  rfl

/-- C12, on a primary-key field and on a field with a `UNIQUE` tag. -/
theorem DataTypeOf_string_fallback_witness :
    (DataTypeOf ⟨{}⟩ { DataType := "string", PrimaryKey := true }).2 = .ok "VARCHAR2(191)"
    ∧ (DataTypeOf ⟨{}⟩ { DataType := "string", TagSettings := [("UNIQUE", "UNIQUE")] }).2
        = .ok "VARCHAR2(191)" :=
  ⟨DataTypeOf_string_fallback ⟨{}⟩ { DataType := "string", PrimaryKey := true } rfl rfl rfl
    (Or.inl rfl),
   DataTypeOf_string_fallback ⟨{}⟩ { DataType := "string", TagSettings := [("UNIQUE", "UNIQUE")] }
    rfl rfl rfl (Or.inr (Or.inr (Or.inr ⟨"UNIQUE", by decide, rfl⟩)))⟩

theorem lookupTag_eq_none_iff (tags : List (String × String)) (k : String) :
    lookupTag tags k = none ↔ ∀ p ∈ tags, p.1 ≠ k := by
  simp [lookupTag, List.find?_eq_none]

theorem mem_deleteTag (tags : List (String × String)) (k : String) :
    ∀ p ∈ deleteTag tags k, p.1 ≠ k := by
  intro p hp
  simpa using (List.mem_filter.mp hp).2

theorem deleteTag_eq_self (tags : List (String × String)) (k : String)
    (h : ∀ p ∈ tags, p.1 ≠ k) : deleteTag tags k = tags := by
  unfold deleteTag
  rw [List.filter_eq_self]
  intro p hp
  simpa using h p hp

theorem tags_after_restrict (tags : List (String × String)) :
    (if (lookupTag tags "RESTRICT").isSome then deleteTag tags "RESTRICT" else tags)
      = deleteTag tags "RESTRICT" := by
  split
  · rfl
  · rename_i hnone
    have hn : lookupTag tags "RESTRICT" = none := by
      cases hl : lookupTag tags "RESTRICT" with
      | none => rfl
      | some v => simp [hl] at hnone
    exact (deleteTag_eq_self tags _ ((lookupTag_eq_none_iff tags _).mp hn)).symm

theorem DataTypeOf_fst (d : Dialector) (field : Field) :
    (DataTypeOf d field).1
      = { field with TagSettings := deleteTag field.TagSettings "RESTRICT" } := by
  unfold DataTypeOf
  by_cases hr : (lookupTag field.TagSettings "RESTRICT").isSome = true
  · rw [if_pos hr]
  · rw [if_neg hr]
    have hself : deleteTag field.TagSettings "RESTRICT" = field.TagSettings := by
      rw [← tags_after_restrict, if_neg hr]
    rw [hself]

/-- C14: after `DataTypeOf`, whether it returned or panicked, the tag map has no
`RESTRICT` entry, every other key reads as before, the other members of the
field are unchanged, and the result is the result on the same field without the
`RESTRICT` tag. -/
theorem DataTypeOf_strips_restrict (d : Dialector) (field : Field) :
    (∀ p ∈ (DataTypeOf d field).1.TagSettings, p.1 ≠ "RESTRICT")
    ∧ lookupTag (DataTypeOf d field).1.TagSettings "RESTRICT" = none
    ∧ (∀ key, key ≠ "RESTRICT" →
        lookupTag (DataTypeOf d field).1.TagSettings key = lookupTag field.TagSettings key)
    ∧ (DataTypeOf d field).1
        = { field with TagSettings := (DataTypeOf d field).1.TagSettings }
    ∧ (DataTypeOf d field).2
        = (DataTypeOf d
            { field with TagSettings := deleteTag field.TagSettings "RESTRICT" }).2 := by
  have hno := mem_deleteTag field.TagSettings "RESTRICT"
  rw [DataTypeOf_fst]
  refine ⟨hno, (lookupTag_eq_none_iff _ _).mpr hno,
    fun key hkey => lookupTag_deleteTag_ne _ _ _ hkey, rfl, ?_⟩
  rw [DataTypeOf_snd, DataTypeOf_snd]
  simp only [tags_after_restrict]
  rw [deleteTag_eq_self (deleteTag field.TagSettings "RESTRICT") _ hno]

theorem typeSwitch_other (d : Dialector) (field : Field)
    (hkind : field.DataType ∉ ["bool", "int", "uint", "float", "string", "time", "bytes"]) :
    typeSwitch d field = otherType field := by
  simp only [List.mem_cons, List.mem_singleton, List.not_mem_nil, not_or, or_false] at hkind
  obtain ⟨h1, h2, h3, h4, h5, h6, h7⟩ := hkind
  simp [typeSwitch, h1, h2, h3, h4, h5, h6, h7]

theorem otherType_after_restrict (field : Field) :
    otherType { field with TagSettings :=
      (if (lookupTag field.TagSettings "RESTRICT").isSome
        then deleteTag field.TagSettings "RESTRICT" else field.TagSettings) }
      = otherType field := by
  simp only [otherType,
    lookupTag_after_restrict _ _ (by decide : "NOT NULL" ≠ "RESTRICT"),
    lookupTag_after_restrict _ _ (by decide : "UNIQUE" ≠ "RESTRICT"),
    lookupTag_after_restrict _ _ (by decide : "DEFAULT" ≠ "RESTRICT"),
    lookupTag_after_restrict _ _ (by decide : "COMMENT" ≠ "RESTRICT")]

/-- C19: for a field whose data type `T` is none of the seven kinds and is not
empty, `DataTypeOf` returns `T'`, a space and `S`: `T'` is `CLOB` when `T` is
`text` in any letter case and `T` otherwise; `S` is the `NOT NULL` and `UNIQUE`
tag values separated by a space, preceded by `DEFAULT `, the default and a
space when there is a `DEFAULT` tag, and only then followed by ` COMMENT ` and
the comment when there is a `COMMENT` tag. -/
theorem DataTypeOf_other (d : Dialector) (field : Field)
    (hkind : field.DataType ∉ ["bool", "int", "uint", "float", "string", "time", "bytes"])
    (hne : field.DataType ≠ "") :
    (DataTypeOf d field).2
      = .ok ((if EqualFold field.DataType "text" = true then "CLOB" else field.DataType)
          ++ " "
          ++ (match lookupTag field.TagSettings "DEFAULT" with
              | none =>
                (lookupTag field.TagSettings "NOT NULL").getD "" ++ " "
                  ++ (lookupTag field.TagSettings "UNIQUE").getD ""
              | some v =>
                "DEFAULT " ++ v ++ " " ++ (lookupTag field.TagSettings "NOT NULL").getD "" ++ " "
                  ++ (lookupTag field.TagSettings "UNIQUE").getD ""
                  ++ (match lookupTag field.TagSettings "COMMENT" with
                      | some c => " COMMENT " ++ c
                      | none => ""))) := by
  rw [DataTypeOf_snd]
  have hsw := typeSwitch_other d { field with TagSettings :=
      (if (lookupTag field.TagSettings "RESTRICT").isSome
        then deleteTag field.TagSettings "RESTRICT" else field.TagSettings) } hkind
  rw [hsw, otherType_after_restrict]
  have hT : (if EqualFold field.DataType "text" = true then "CLOB" else field.DataType) ≠ "" := by
    split
    · decide
    · exact hne
  unfold otherType
  simp only [hT, if_false]
  cases lookupTag field.TagSettings "DEFAULT" with
  | none => rfl
  | some v =>
    have hD : "DEFAULT" ++ " " = "DEFAULT " := by decide
    simp only [String.append_assoc]
    rw [← String.append_assoc "DEFAULT" " ", hD]

/-- C19, on a `TEXT` field with a default and a comment, and on a `geometry`
field with a comment only, which is not written. -/
theorem DataTypeOf_other_witness :
    (DataTypeOf ⟨{}⟩
        { DataType := "TEXT", TagSettings := [("DEFAULT", "'x'"), ("COMMENT", "note")] }).2
      = .ok "CLOB DEFAULT 'x'   COMMENT note"
    ∧ (DataTypeOf ⟨{}⟩
        { DataType := "geometry", TagSettings := [("NOT NULL", "NOT NULL"), ("COMMENT", "note")] }).2
      = .ok "geometry NOT NULL " :=
  ⟨(DataTypeOf_other ⟨{}⟩
      { DataType := "TEXT", TagSettings := [("DEFAULT", "'x'"), ("COMMENT", "note")] }
      (by decide) (by decide)).trans rfl,
   (DataTypeOf_other ⟨{}⟩
      { DataType := "geometry", TagSettings := [("NOT NULL", "NOT NULL"), ("COMMENT", "note")] }
      (by decide) (by decide)).trans rfl⟩

/-! ## Initialize -/

/-- C15: when no connection handle is configured and `sql.Open` fails with
`e`, the pool of the `gorm.DB` is what the failed call returned, and the error
`Initialize` returns is the one `Replace` returned afterwards; when `Replace`
succeeds it is nil, not `e`: the error of `sql.Open` is overwritten. -/
theorem Initialize_open_error_overwritten (rt : Runtime) (d : Dialector) (db : DB) (e : String)
    (hconn : d.Config.Conn = none)
    (hopen : (rt.Open "oracle" d.Config.DSN).2 = some e) :
    (Initialize rt d db).2.1.ConnPool = (rt.Open "oracle" d.Config.DSN).1
    ∧ (Initialize rt d db).2.2 = rt.Replace
    ∧ (rt.Replace = none →
        (Initialize rt d db).2.2 = none
        ∧ (Initialize rt d db).2.2 ≠ (rt.Open "oracle" d.Config.DSN).2) := by
  have h : (Initialize rt d db).2.2 = rt.Replace := by
    unfold Initialize
    cases rt.Replace <;> rfl
  have hp : (Initialize rt d db).2.1.ConnPool = (rt.Open "oracle" d.Config.DSN).1 := by
    unfold Initialize
    cases rt.Replace <;> simp [hconn]
  refine ⟨hp, h, fun hr => ⟨h.trans hr, ?_⟩⟩
  rw [h, hr, hopen]
  simp

/-- C15, with `sql.Open` failing on every DSN and `Replace` succeeding:
`Initialize` returns nil. -/
theorem Initialize_open_error_overwritten_witness :
    (⟨{ DSN := "oracle://" }⟩ : Dialector).Config.Conn = none
    ∧ ((⟨fun _ _ => (none, some "invalid dsn"), none⟩ : Runtime).Open "oracle" "oracle://").2
        = some "invalid dsn"
    ∧ (Initialize ⟨fun _ _ => (none, some "invalid dsn"), none⟩ ⟨{ DSN := "oracle://" }⟩ {}).2.2
        = none :=
  ⟨rfl, rfl,
   ((Initialize_open_error_overwritten ⟨fun _ _ => (none, some "invalid dsn"), none⟩
      ⟨{ DSN := "oracle://" }⟩ {} "invalid dsn" rfl rfl).2.2 rfl).1⟩

/-- C20: `Initialize` leaves the default string size at 1024 whatever was
configured and whatever it returns, and under the initialized dialect
`DataTypeOf` returns `VARCHAR2(1024)` for every string field of declared size
0. -/
theorem Initialize_default_string_size (rt : Runtime) (d : Dialector) (db : DB) (field : Field)
    (hkind : field.DataType = "string") (hsize : field.Size = 0) :
    (Initialize rt d db).1.Config.DefaultStringSize = 1024
    ∧ (DataTypeOf (Initialize rt d db).1 field).2 = .ok "VARCHAR2(1024)" := by
  have h : (Initialize rt d db).1.Config.DefaultStringSize = 1024 := by
    unfold Initialize
    cases rt.Replace <;> rfl
  refine ⟨h, ?_⟩
  rw [DataTypeOf_string_resolved (Initialize rt d db).1 field 1024 hkind
    (Or.inr ⟨hsize, by rw [h]; decide, by rw [h]; decide, by rw [h]; rfl⟩)]
  rfl

/-- C20, for a dialect configured with the default size 4000 and a primary-key
string field with a `UNIQUE` tag. -/
theorem Initialize_default_string_size_witness :
    (Initialize ⟨fun _ _ => (some "pool", none), none⟩
        ⟨{ DefaultStringSize := 4000 }⟩ {}).1.Config.DefaultStringSize = 1024
    ∧ (DataTypeOf (Initialize ⟨fun _ _ => (some "pool", none), none⟩
        ⟨{ DefaultStringSize := 4000 }⟩ {}).1
        { DataType := "string", PrimaryKey := true, TagSettings := [("UNIQUE", "UNIQUE")] }).2
      = .ok "VARCHAR2(1024)" :=
  Initialize_default_string_size ⟨fun _ _ => (some "pool", none), none⟩
    ⟨{ DefaultStringSize := 4000 }⟩ {}
    { DataType := "string", PrimaryKey := true, TagSettings := [("UNIQUE", "UNIQUE")] } rfl rfl

/-! ## RewriteWhere: order, joiners and parentheses -/

theorem isAnchor_eq_true_iff (e : Expression) :
    isAnchor e = true ↔ ¬ ∃ es, e = .OrConditions es ∧ es.length ≤ 1 := by
  rw [← isAnchor_eq_false_iff]
  cases isAnchor e <;> simp

theorem normalizeFrom_skip (Exprs : List Expression) :
    ∀ (skip rest : List Expression) (idx : Nat), (∀ e ∈ skip, isAnchor e = false) →
      normalizeFrom Exprs (skip ++ rest) idx = normalizeFrom Exprs rest (idx + skip.length) := by
  intro skip
  induction skip with
  | nil => intro rest idx _; rfl
  | cons x skip ih =>
    intro rest idx hskip
    have hx : isAnchor x = false := hskip x (List.mem_cons_self _ _)
    show normalizeFrom Exprs (x :: (skip ++ rest)) idx = _
    simp only [normalizeFrom, hx]
    rw [if_neg (by decide), ih rest (idx + 1) (fun e he => hskip e (List.mem_cons_of_mem _ he))]
    rw [List.length_cons, Nat.add_assoc, Nat.add_comm 1]

theorem swapFirst_cons_append (a c : Expression) (pre post : List Expression) :
    swapFirst (a :: pre ++ c :: post) (pre.length + 1) = c :: pre ++ a :: post := by
  have h0 : (a :: pre ++ c :: post)[0]? = some a := by simp
  have hi : (a :: pre ++ c :: post)[pre.length + 1]? = some c := by
    show (a :: (pre ++ c :: post))[pre.length + 1]? = some c
    rw [List.getElem?_cons_succ, List.getElem?_append_right (Nat.le_refl _)]
    simp
  simp only [swapFirst, h0, hi]
  show ((a :: (pre ++ c :: post)).set 0 c).set (pre.length + 1) a = _
  rw [List.set_cons_zero, List.set_cons_succ, List.set_append_right _ _ (Nat.le_refl _)]
  simp

theorem normalizeExprs_all_trivial (Exprs : List Expression)
    (hall : ∀ e ∈ Exprs, isAnchor e = false) : normalizeExprs Exprs = Exprs := by
  have h := normalizeFrom_skip Exprs Exprs [] 0 hall
  rw [List.append_nil] at h
  exact h

theorem normalizeExprs_anchor_first (c : Expression) (post : List Expression)
    (hc : isAnchor c = true) : normalizeExprs (c :: post) = c :: post := by
  simp [normalizeExprs, normalizeFrom, hc]

theorem normalizeExprs_anchor_later (a c : Expression) (pre post : List Expression)
    (hpre : ∀ e ∈ a :: pre, isAnchor e = false) (hc : isAnchor c = true) :
    normalizeExprs (a :: pre ++ c :: post) = c :: pre ++ a :: post := by
  have h := normalizeFrom_skip (a :: pre ++ c :: post) (a :: pre) (c :: post) 0 hpre
  unfold normalizeExprs
  rw [h]
  simp only [normalizeFrom, hc, if_true, List.length_cons, Nat.zero_add]
  rw [if_pos (Nat.succ_ne_zero _)]
  exact swapFirst_cons_append a c pre post

/-- C16, as stated, fails: an empty OR-group is not a single-element OR-group
and stands first, so the sequence should stay as it is, and the normalization
exchanges it with the second child. -/
theorem normalize_sequence_counterexample :
    ¬ ((¬ ∃ x, Expression.OrConditions [] = .OrConditions [x]) →
        normalizeExprs [.OrConditions [], .Expr "a = 1" []]
          = [.OrConditions [], .Expr "a = 1" []]) := by
  intro h
  have h1 := h (by rintro ⟨x, hx⟩; cases hx)
  have h2 : normalizeExprs [.OrConditions [], .Expr "a = 1" []]
      = [.Expr "a = 1" [], .OrConditions []] := rfl
  rw [h2] at h1
  cases h1

theorem isSingleOr_text (c : Expression) :
    (if isSingleOr c = true then " OR " else " AND ")
      = (match c with
          | .OrConditions [_] => " OR "
          | _ => " AND ") := by
  cases c with
  | OrConditions es =>
    cases es with
    | nil => rfl
    | cons x t => cases t <;> rfl
  | _ => rfl

theorem writeJoiner_eq (idx : Nat) (c : Expression) (b : Builder) :
    writeJoiner idx c b
      = if idx = 0 then b
        else b.WriteString (match c with
          | .OrConditions [_] => " OR "
          | _ => " AND ") := by
  rw [← isSingleOr_text]
  unfold writeJoiner
  by_cases hidx : idx = 0
  · simp [hidx]
  · have hpos : idx > 0 := Nat.pos_of_ne_zero hidx
    simp only [hpos, hidx, if_true, if_false]
    split <;> rfl

theorem whereStep_joiner (h : Host) (n idx : Nat) (c : Expression) (b : Builder) :
    whereStep h n idx c (b, false) = whereStep h n 0 c (writeJoiner idx c b, false) := by
  simp [whereStep, writeJoiner]

theorem normalizeExprs_singleton (c : Expression) : normalizeExprs [c] = [c] := by
  unfold normalizeExprs
  simp only [normalizeFrom]
  split <;> rfl

/-- C13: on a clause of exactly one child `RewriteWhere` writes ` WHERE ` and
then the child through the unwrapped branch, without parentheses: the
expansion for a membership test whose first value is a list of more than one
element, the default rendering for every other child, except that a
membership test with an empty value list makes it panic. -/
theorem RewriteWhere_single_child (h : Host) (d : Dialector) (c : Expression)
    (builder : Builder) :
    RewriteWhere h d ⟨.Where [c]⟩ builder
      = match c with
        | .IN _ [] => .error "index out of range [0] with length 0"
        | .IN Column (.slice values :: rest) =>
          if values.length > 1
          then .ok (h.BuildIN Column (.slice values :: rest) (builder.WriteString " WHERE "))
          else .ok (h.Build c (builder.WriteString " WHERE "))
        | _ => .ok (h.Build c (builder.WriteString " WHERE ")) := by
  have hrun : RewriteWhere h d ⟨.Where [c]⟩ builder
      = writePlain h c (builder.WriteString " WHERE ") := by
    simp only [RewriteWhere, normalizeExprs_singleton, whereLoop, whereStep, writeJoiner,
      List.length_singleton]
    simp only [Nat.lt_irrefl, gt_iff_lt, if_false]
    cases writePlain h c (builder.WriteString " WHERE ") <;> rfl
  rw [hrun]
  unfold writePlain
  cases c with
  | IN Column Values =>
    cases Values with
    | nil => rfl
    | cons v rest =>
      cases v with
      | slice values => by_cases hv : values.length > 1 <;> simp [hv]
      | _ => rfl
  | _ => rfl

/-! ## RewriteWhere against the total description -/

theorem writeJoiner_succ (idx : Nat) (c : Expression) (b : Builder) :
    writeJoiner (idx + 1) c b = b.WriteString (joinerText c) := by
  rw [writeJoiner_eq, if_neg (Nat.succ_ne_zero idx)]
  rfl

theorem whereStep_childText_zero (h : Host) (n : Nat) (c : Expression) (b : Builder)
    (hne : ∀ Column, c ≠ .IN Column []) :
    whereStep h n 0 c (b, false) = .ok (childText h n c b, false) := by
  by_cases hn : 1 < n
  · cases c with
    | Expr SQL Vars =>
      by_cases hw : (Contains (ToLower SQL) "and" || Contains (ToLower SQL) "or") = true <;>
        simp [whereStep, writeJoiner, wrapSwitch, containsAndOr, childText, wrapsChild,
          writeWrapped, writePlain, hn, hw]
    | OrConditions es =>
      cases es with
      | nil =>
        simp [whereStep, writeJoiner, wrapSwitch, childText, wrapsChild, writePlain, hn]
      | cons e t =>
        cases t with
        | nil =>
          cases e with
          | Expr SQL Vars =>
            by_cases hw : (Contains (ToLower SQL) "and" || Contains (ToLower SQL) "or") = true <;>
              simp [whereStep, writeJoiner, wrapSwitch, containsAndOr, childText,
                wrapsChild, writeWrapped, writePlain, hn, hw]
          | _ =>
            simp [whereStep, writeJoiner, wrapSwitch, childText, wrapsChild, writePlain,
              hn]
        | cons e2 t2 =>
          simp [whereStep, writeJoiner, wrapSwitch, childText, wrapsChild, writePlain, hn]
    | AndConditions es =>
      cases es with
      | nil =>
        simp [whereStep, writeJoiner, wrapSwitch, childText, wrapsChild, writePlain, hn]
      | cons e t =>
        cases t with
        | nil =>
          cases e with
          | Expr SQL Vars =>
            by_cases hw : (Contains (ToLower SQL) "and" || Contains (ToLower SQL) "or") = true <;>
              simp [whereStep, writeJoiner, wrapSwitch, containsAndOr, childText,
                wrapsChild, writeWrapped, writePlain, hn, hw]
          | _ =>
            simp [whereStep, writeJoiner, wrapSwitch, childText, wrapsChild, writePlain,
              hn]
        | cons e2 t2 =>
          simp [whereStep, writeJoiner, wrapSwitch, childText, wrapsChild, writePlain, hn]
    | IN Column Values =>
      cases Values with
      | nil => exact absurd rfl (hne Column)
      | cons v rest =>
        cases v with
        | slice values =>
          by_cases hv : 1 < values.length <;>
            simp [whereStep, writeJoiner, wrapSwitch, childText, wrapsChild, writePlain,
              hn, hv]
        | _ =>
          simp [whereStep, writeJoiner, wrapSwitch, childText, wrapsChild, writePlain, hn]
    | _ =>
      simp [whereStep, writeJoiner, wrapSwitch, childText, wrapsChild, writePlain, hn]
  · cases c with
    | IN Column Values =>
      cases Values with
      | nil => exact absurd rfl (hne Column)
      | cons v rest =>
        cases v with
        | slice values =>
          by_cases hv : 1 < values.length <;>
            simp [whereStep, writeJoiner, childText, wrapsChild, writePlain, hn, hv]
        | _ => simp [whereStep, writeJoiner, childText, wrapsChild, writePlain, hn]
    | _ => simp [whereStep, writeJoiner, childText, wrapsChild, writePlain, hn]

theorem whereStep_childText (h : Host) (n idx : Nat) (c : Expression) (b : Builder)
    (hne : ∀ Column, c ≠ .IN Column []) :
    whereStep h n idx c (b, false)
      = .ok (childText h n c (writeJoiner idx c b), false) := by
  rw [whereStep_joiner, whereStep_childText_zero h n c _ hne]

theorem whereLoop_restText (h : Host) (n : Nat) :
    ∀ (l : List Expression) (idx : Nat) (b : Builder),
      (∀ c ∈ l, ∀ Column, c ≠ .IN Column []) →
      whereLoop h n l (idx + 1) (b, false) = .ok (restText h n l b, false) := by
  intro l
  induction l with
  | nil => intro idx b _; rfl
  | cons c rest ih =>
    intro idx b hl
    simp only [whereLoop]
    rw [whereStep_childText h n (idx + 1) c b (hl c (List.mem_cons_self _ _)), writeJoiner_succ]
    simp only
    rw [ih (idx + 1) _ (fun x hx => hl x (List.mem_cons_of_mem _ hx))]
    rfl

theorem whereLoop_clauseText (h : Host) (n : Nat) (l : List Expression) (b : Builder)
    (hl : ∀ c ∈ l, ∀ Column, c ≠ .IN Column []) :
    whereLoop h n l 0 (b, false) = .ok (clauseText h n l b, false) := by
  cases l with
  | nil => rfl
  | cons c rest =>
    simp only [whereLoop]
    rw [whereStep_childText_zero h n c b (hl c (List.mem_cons_self _ _))]
    simp only
    rw [whereLoop_restText h n rest 0 _ (fun x hx => hl x (List.mem_cons_of_mem _ hx))]
    rfl

theorem RewriteWhere_clauseText (h : Host) (d : Dialector) (Exprs : List Expression)
    (builder : Builder) (hno : ∀ Column, Expression.IN Column [] ∉ Exprs) :
    RewriteWhere h d ⟨.Where Exprs⟩ builder
      = .ok (clauseText h Exprs.length (normalizeExprs Exprs)
          (builder.WriteString " WHERE ")) := by
  have hl : ∀ c ∈ normalizeExprs Exprs, ∀ Column, c ≠ .IN Column [] := by
    intro c hc Column heq
    exact hno Column (heq ▸ (normalizeExprs_perm Exprs).mem_iff.mp hc)
  simp only [RewriteWhere, normalizeExprs_length]
  rw [whereLoop_clauseText h _ _ _ hl]

theorem restText_append (h : Host) (n : Nat) (l1 l2 : List Expression) (b : Builder) :
    restText h n (l1 ++ l2) b = restText h n l2 (restText h n l1 b) := by
  simp [restText, List.foldl_append]

theorem clauseText_split (h : Host) (n : Nat) (pre post : List Expression)
    (c : Expression) (b : Builder) :
    clauseText h n (pre ++ c :: post) b
      = restText h n post (childText h n c
          (if pre.length = 0 then clauseText h n pre b
           else (clauseText h n pre b).WriteString (joinerText c))) := by
  cases pre with
  | nil => rfl
  | cons p pre =>
    show restText h n (pre ++ c :: post) (childText h n p b) = _
    rw [restText_append]
    rfl

theorem RewriteWhere_clauseText_at (h : Host) (d : Dialector) (Exprs pre post : List Expression)
    (c : Expression) (builder : Builder) (hno : ∀ Column, Expression.IN Column [] ∉ Exprs)
    (hn : normalizeExprs Exprs = pre ++ c :: post) :
    RewriteWhere h d ⟨.Where Exprs⟩ builder
      = .ok (restText h Exprs.length post (childText h Exprs.length c
          (if pre.length = 0
           then clauseText h Exprs.length pre (builder.WriteString " WHERE ")
           else (clauseText h Exprs.length pre
              (builder.WriteString " WHERE ")).WriteString (joinerText c)))) := by
  rw [RewriteWhere_clauseText h d Exprs builder hno, hn, clauseText_split]

/-- C4, amended: in a clause none of whose children is a membership test with
an empty value list, `RewriteWhere` returns, and a membership test among the
children is written, after ` AND ` unless it is first, through the expansion
routine on the same column and values when its first value is itself a list of
more than one element, and by its default rendering otherwise. -/
theorem RewriteWhere_membership (h : Host) (d : Dialector) (Exprs : List Expression)
    (Column v : Value) (rest : List Value) (builder : Builder)
    (hno : ∀ Column, Expression.IN Column [] ∉ Exprs)
    (hmem : .IN Column (v :: rest) ∈ Exprs) :
    (∃ pre post, normalizeExprs Exprs = pre ++ .IN Column (v :: rest) :: post)
    ∧ ∀ pre post, normalizeExprs Exprs = pre ++ .IN Column (v :: rest) :: post →
        RewriteWhere h d ⟨.Where Exprs⟩ builder
          = .ok (restText h Exprs.length post
              ((match v with
                | .slice values =>
                  if values.length > 1 then h.BuildIN Column (v :: rest)
                  else h.Build (.IN Column (v :: rest))
                | _ => h.Build (.IN Column (v :: rest)))
                (if pre.length = 0
                 then clauseText h Exprs.length pre (builder.WriteString " WHERE ")
                 else (clauseText h Exprs.length pre
                    (builder.WriteString " WHERE ")).WriteString " AND "))) := by
  refine ⟨normalizeExprs_split Exprs _ hmem, fun pre post hn => ?_⟩
  rw [RewriteWhere_clauseText_at h d Exprs pre post _ builder hno hn]
  cases v with
  | slice values =>
    by_cases hv : 1 < values.length <;> simp [childText, wrapsChild, joinerText, hv]
  | _ => simp [childText, wrapsChild, joinerText]

/-- C4, amended, on `name = 'a' AND (id, age) IN ((1, 2))`: the pair is a list of
two elements and goes through the expansion routine. -/
theorem RewriteWhere_membership_witness :
    (∀ Column, Expression.IN Column []
        ∉ [Expression.Expr "name = 'a'" [], .IN (.str "id") [.slice [.int 1, .int 2]]])
    ∧ Expression.IN (.str "id") [.slice [.int 1, .int 2]]
        ∈ [Expression.Expr "name = 'a'" [], .IN (.str "id") [.slice [.int 1, .int 2]]]
    ∧ RewriteWhere sampleHost ⟨{}⟩
        ⟨.Where [.Expr "name = 'a'" [], .IN (.str "id") [.slice [.int 1, .int 2]]]⟩ (.Writer "")
      = .ok (.Writer " WHERE name = 'a' AND <expansion>") :=
  ⟨by simp, by simp,
   ((RewriteWhere_membership sampleHost ⟨{}⟩
      [.Expr "name = 'a'" [], .IN (.str "id") [.slice [.int 1, .int 2]]]
      (.str "id") (.slice [.int 1, .int 2]) [] (.Writer "") (by simp) (by simp)).2
      [.Expr "name = 'a'" []] [] rfl).trans rfl⟩

/-- C6, amended: in a clause of more than one child, none of them a membership
test with an empty value list, `RewriteWhere` returns, and a child that is a
single-element OR-group or AND-group is written, after its joiner unless it is
first, as `(`, its own rendering, `)` when its element is a raw expression whose
lower-cased SQL text contains `and` or `or`, and as its own rendering alone
otherwise. -/
theorem RewriteWhere_single_group (h : Host) (d : Dialector) (Exprs : List Expression)
    (c e : Expression) (builder : Builder) (hlen : 1 < Exprs.length)
    (hno : ∀ Column, Expression.IN Column [] ∉ Exprs)
    (hc : c = .OrConditions [e] ∨ c = .AndConditions [e]) (hmem : c ∈ Exprs) :
    (∃ pre post, normalizeExprs Exprs = pre ++ c :: post)
    ∧ ∀ pre post, normalizeExprs Exprs = pre ++ c :: post →
        RewriteWhere h d ⟨.Where Exprs⟩ builder
          = .ok (restText h Exprs.length post
              ((fun b =>
                  if (match e with
                      | .Expr SQL _ =>
                        Contains (ToLower SQL) "and" || Contains (ToLower SQL) "or"
                      | _ => false) = true
                  then (h.Build c (b.WriteString "(")).WriteString ")"
                  else h.Build c b)
                (if pre.length = 0
                 then clauseText h Exprs.length pre (builder.WriteString " WHERE ")
                 else (clauseText h Exprs.length pre
                    (builder.WriteString " WHERE ")).WriteString (joinerText c)))) := by
  refine ⟨normalizeExprs_split Exprs c hmem, fun pre post hn => ?_⟩
  rw [RewriteWhere_clauseText_at h d Exprs pre post c builder hno hn]
  rcases hc with hc | hc <;> subst hc <;> cases e with
  | Expr SQL Vars =>
    by_cases hw : (Contains (ToLower SQL) "and" || Contains (ToLower SQL) "or") = true <;>
      simp [childText, wrapsChild, hlen, hw]
  | _ => simp [childText, wrapsChild, hlen]

/-- C6, amended, on `a = 1 OR (b = 2 and c = 3)`. -/
theorem RewriteWhere_single_group_witness :
    1 < [Expression.Expr "a = 1" [], .OrConditions [.Expr "b = 2 and c = 3" []]].length
    ∧ (∀ Column, Expression.IN Column []
        ∉ [Expression.Expr "a = 1" [], .OrConditions [.Expr "b = 2 and c = 3" []]])
    ∧ Expression.OrConditions [.Expr "b = 2 and c = 3" []]
        ∈ [Expression.Expr "a = 1" [], .OrConditions [.Expr "b = 2 and c = 3" []]]
    ∧ RewriteWhere sampleHost ⟨{}⟩
        ⟨.Where [.Expr "a = 1" [], .OrConditions [.Expr "b = 2 and c = 3" []]]⟩ (.Writer "")
      = .ok (.Writer " WHERE a = 1 OR (b = 2 and c = 3)") :=
  ⟨by decide, by simp, by simp,
   ((RewriteWhere_single_group sampleHost ⟨{}⟩
      [.Expr "a = 1" [], .OrConditions [.Expr "b = 2 and c = 3" []]]
      (.OrConditions [.Expr "b = 2 and c = 3" []])
      (.Expr "b = 2 and c = 3" []) (.Writer "") (by decide) (by simp) (Or.inl rfl) (by simp)).2
      [.Expr "a = 1" []] [] rfl).trans rfl⟩

/-- C16, amended: the sequence the second loop of `RewriteWhere` goes through
is a permutation of the children: the input with the first child that is not an
OR-group of at most one element exchanged with the child at position 0, all
other positions as they were, and the input itself when that child is first or
there is none; and when no child is a membership test with an empty value list,
`RewriteWhere` returns and has written every child of that sequence once, in
that order. -/
theorem normalize_sequence (Exprs : List Expression) :
    (normalizeExprs Exprs).Perm Exprs
    ∧ ((∀ Column, Expression.IN Column [] ∉ Exprs) →
        ∀ (h : Host) (d : Dialector) (builder : Builder),
          RewriteWhere h d ⟨.Where Exprs⟩ builder
            = .ok (clauseText h Exprs.length (normalizeExprs Exprs)
                (builder.WriteString " WHERE ")))
    ∧ (∀ c post, Exprs = c :: post → (¬ ∃ es, c = .OrConditions es ∧ es.length ≤ 1) →
        normalizeExprs Exprs = Exprs)
    ∧ (∀ a pre c post, Exprs = a :: pre ++ c :: post →
        (∀ e ∈ a :: pre, ∃ es, e = .OrConditions es ∧ es.length ≤ 1) →
        (¬ ∃ es, c = .OrConditions es ∧ es.length ≤ 1) →
        normalizeExprs Exprs = c :: pre ++ a :: post)
    ∧ ((∀ e ∈ Exprs, ∃ es, e = .OrConditions es ∧ es.length ≤ 1) →
        normalizeExprs Exprs = Exprs) := by
  refine ⟨normalizeExprs_perm Exprs, ?_, ?_, ?_, ?_⟩
  · intro hno h d builder
    exact RewriteWhere_clauseText h d Exprs builder hno
  · intro c post hE hc
    rw [hE]
    exact normalizeExprs_anchor_first c post ((isAnchor_eq_true_iff c).mpr hc)
  · intro a pre c post hE hpre hc
    rw [hE]
    exact normalizeExprs_anchor_later a c pre post
      (fun e he => (isAnchor_eq_false_iff e).mpr (hpre e he)) ((isAnchor_eq_true_iff c).mpr hc)
  · intro hall
    exact normalizeExprs_all_trivial Exprs (fun e he => (isAnchor_eq_false_iff e).mpr (hall e he))

/-- C16, amended, on `OR (a = 1)`, `OR (x = 9)`, `b = 2`, `c = 3`: the third
child comes first and the first child takes its place, and the four children
are written in that order. -/
theorem normalize_sequence_witness :
    normalizeExprs [.OrConditions [.Expr "a = 1" []], .OrConditions [.Expr "x = 9" []],
        .Expr "b = 2" [], .Expr "c = 3" []]
      = [.Expr "b = 2" [], .OrConditions [.Expr "x = 9" []], .OrConditions [.Expr "a = 1" []],
          .Expr "c = 3" []]
    ∧ RewriteWhere sampleHost ⟨{}⟩
        ⟨.Where [.OrConditions [.Expr "a = 1" []], .OrConditions [.Expr "x = 9" []],
          .Expr "b = 2" [], .Expr "c = 3" []]⟩ (.Writer "")
      = .ok (.Writer " WHERE b = 2 OR x = 9 OR a = 1 AND c = 3") :=
  ⟨(normalize_sequence [.OrConditions [.Expr "a = 1" []], .OrConditions [.Expr "x = 9" []],
      .Expr "b = 2" [], .Expr "c = 3" []]).2.2.2.1
    (.OrConditions [.Expr "a = 1" []]) [.OrConditions [.Expr "x = 9" []]] (.Expr "b = 2" [])
    [.Expr "c = 3" []] rfl
    (by
      intro e he
      simp only [List.mem_cons, List.mem_singleton, List.not_mem_nil, or_false] at he
      rcases he with he | he
      · exact ⟨_, he, by decide⟩
      · exact ⟨_, he, by decide⟩)
    (by rintro ⟨es, hes, _⟩; cases hes),
   ((normalize_sequence [.OrConditions [.Expr "a = 1" []], .OrConditions [.Expr "x = 9" []],
      .Expr "b = 2" [], .Expr "c = 3" []]).2.1 (by simp) sampleHost ⟨{}⟩ (.Writer "")).trans rfl⟩

/-- C17: in a clause none of whose children is a membership test with an empty
value list, `RewriteWhere` returns after writing ` WHERE `, the first
normalized child without joiner and each of the other `n - 1` children after
one joiner, ` OR ` for a single-element OR-group and ` AND ` otherwise; on the
clause `id IN () AND b = 2` it panics at the first child and writes no joiner. -/
theorem RewriteWhere_joiner (h : Host) (d : Dialector) (builder : Builder) :
    (∀ (Exprs : List Expression) (c0 : Expression) (rest : List Expression),
      (∀ Column, Expression.IN Column [] ∉ Exprs) →
      normalizeExprs Exprs = c0 :: rest →
      RewriteWhere h d ⟨.Where Exprs⟩ builder
        = .ok (rest.foldl
            (fun b c => childText h Exprs.length c
              (b.WriteString (match c with
                | .OrConditions [_] => " OR "
                | _ => " AND ")))
            (childText h Exprs.length c0 (builder.WriteString " WHERE "))))
    ∧ (∀ Column, RewriteWhere h d ⟨.Where [.IN Column [], .Expr "b = 2" []]⟩ builder
        = .error "index out of range [0] with length 0") := by
  refine ⟨fun Exprs c0 rest hno hn => ?_, fun Column => rfl⟩
  rw [RewriteWhere_clauseText h d Exprs builder hno, hn]
  rfl

/-- C17, on `a = 1`, `OR (b = 2)`, `c = 3`. -/
theorem RewriteWhere_joiner_witness :
    (∀ Column, Expression.IN Column []
        ∉ [Expression.Expr "a = 1" [], .OrConditions [.Expr "b = 2" []], .Expr "c = 3" []])
    ∧ normalizeExprs [.Expr "a = 1" [], .OrConditions [.Expr "b = 2" []], .Expr "c = 3" []]
        = .Expr "a = 1" [] :: [.OrConditions [.Expr "b = 2" []], .Expr "c = 3" []]
    ∧ RewriteWhere sampleHost ⟨{}⟩
        ⟨.Where [.Expr "a = 1" [], .OrConditions [.Expr "b = 2" []], .Expr "c = 3" []]⟩
        (.Writer "")
      = .ok (.Writer " WHERE a = 1 OR b = 2 AND c = 3") :=
  ⟨by simp, rfl,
   ((RewriteWhere_joiner sampleHost ⟨{}⟩ (.Writer "")).1
      [.Expr "a = 1" [], .OrConditions [.Expr "b = 2" []], .Expr "c = 3" []]
      (.Expr "a = 1" []) [.OrConditions [.Expr "b = 2" []], .Expr "c = 3" []]
      (by simp) rfl).trans rfl⟩

/-- C18: in a clause of more than one child, none of them a membership test
with an empty value list, `RewriteWhere` returns, and a raw expression leaf
among the children is written, after ` AND ` unless it is first and whatever
the children before it, as `(`, its rendering, `)` exactly when its lower-cased
SQL text contains `and` or `or`, and as its rendering alone otherwise; on the
clause `id IN () AND b or c` it panics before the leaf is written. -/
theorem RewriteWhere_raw_expression (h : Host) (d : Dialector) (builder : Builder) :
    (∀ (Exprs : List Expression) (SQL : String) (Vars : List Value),
      1 < Exprs.length →
      (∀ Column, Expression.IN Column [] ∉ Exprs) →
      .Expr SQL Vars ∈ Exprs →
      (∃ pre post, normalizeExprs Exprs = pre ++ .Expr SQL Vars :: post)
      ∧ ∀ pre post, normalizeExprs Exprs = pre ++ .Expr SQL Vars :: post →
          RewriteWhere h d ⟨.Where Exprs⟩ builder
            = .ok (restText h Exprs.length post
                ((fun b =>
                    if (Contains (ToLower SQL) "and" || Contains (ToLower SQL) "or") = true
                    then (h.Build (.Expr SQL Vars) (b.WriteString "(")).WriteString ")"
                    else h.Build (.Expr SQL Vars) b)
                  (if pre.length = 0
                   then clauseText h Exprs.length pre (builder.WriteString " WHERE ")
                   else (clauseText h Exprs.length pre
                      (builder.WriteString " WHERE ")).WriteString " AND "))))
    ∧ (∀ Column, RewriteWhere h d ⟨.Where [.IN Column [], .Expr "b or c" []]⟩ builder
        = .error "index out of range [0] with length 0") := by
  refine ⟨fun Exprs SQL Vars hlen hno hmem =>
    ⟨normalizeExprs_split Exprs _ hmem, fun pre post hn => ?_⟩, fun Column => rfl⟩
  rw [RewriteWhere_clauseText_at h d Exprs pre post _ builder hno hn]
  by_cases hw : (Contains (ToLower SQL) "and" || Contains (ToLower SQL) "or") = true <;>
    simp [childText, wrapsChild, joinerText, hlen, hw]

/-- C18, on `a = 1 AND (b = 2 OR c = 3) AND status = 4`: the second leaf contains
`or` and is wrapped, the third does not and is not. -/
theorem RewriteWhere_raw_expression_witness :
    1 < [Expression.Expr "a = 1" [], .Expr "b = 2 OR c = 3" [], .Expr "status = 4" []].length
    ∧ (∀ Column, Expression.IN Column []
        ∉ [Expression.Expr "a = 1" [], .Expr "b = 2 OR c = 3" [], .Expr "status = 4" []])
    ∧ Expression.Expr "b = 2 OR c = 3" []
        ∈ [Expression.Expr "a = 1" [], .Expr "b = 2 OR c = 3" [], .Expr "status = 4" []]
    ∧ RewriteWhere sampleHost ⟨{}⟩
        ⟨.Where [.Expr "a = 1" [], .Expr "b = 2 OR c = 3" [], .Expr "status = 4" []]⟩
        (.Writer "")
      = .ok (.Writer " WHERE a = 1 AND (b = 2 OR c = 3) AND status = 4") :=
  ⟨by decide, by simp, by simp,
   (((RewriteWhere_raw_expression sampleHost ⟨{}⟩ (.Writer "")).1
      [.Expr "a = 1" [], .Expr "b = 2 OR c = 3" [], .Expr "status = 4" []]
      "b = 2 OR c = 3" [] (by decide) (by simp) (by simp)).2
      [.Expr "a = 1" []] [.Expr "status = 4" []] rfl).trans rfl⟩

end Oracle
